import Mathlib

/-!
# Public-key resolution and record verification (`routing/dht/records.go`)

A shallow embedding of `GetPublicKey`, `getPublicKeyFromNode`,
`verifyRecordLocally` and `verifyRecordOnline`.

The functions of the source are methods of `*IpfsDHT` that call collaborators
which live outside the source tree (the peerstore, the single-peer request
`getValueSingle`, the DHT lookup `GetValue`, the crypto helpers and the
pluggable `Validator`).  Those collaborators are taken as parameters, bundled
in `Env`.  The mutable part of the node (peerstore contents, network state) is
an abstract world `W` that is threaded through every effectful call, and every
call of a collaborator is appended to a trace of `Event`s, so that statements
such as "the DHT lookup was never invoked" are statements about the trace.

Go conventions used throughout:
* a value of type `error` is an `Option Err` (`none` is `nil`);
* a key of interface type `ci.PubKey` that may be `nil` is an `Option PubKey`;
* a collaborator returning `(x, error)` is an `Except Err _`: on a `nil` error
  the value is present, on a non-`nil` error the value is ignored by the code.
-/

namespace Dht

/-- Go `peer.ID`, a string type. -/
abbrev PeerID := String

/-- Go `[]byte`; the elements stand for bytes. -/
abbrev Bytes := List Nat

/-- Go `ci.PubKey` (go-libp2p-crypto), an immutable key value identified by a
number. -/
structure PubKey where
  handle : Nat
  deriving DecidableEq, Repr

/-- Go `error` values.  The three `fmt.Errorf` sites of `records.go` have a
constructor each; `foreign` stands for an error produced by a collaborator. -/
inductive Err where
  /-- Go `fmt.Errorf("Node not responding with its public key: %s", p)`. -/
  | nodeNotResponding (p : PeerID)
  /-- Go `fmt.Errorf("public key does not match id: %s", p)`. -/
  | keyMismatch (p : PeerID)
  /-- Go `fmt.Errorf("do not have public key for %s", p)`. -/
  | noPublicKey (p : PeerID)
  /-- An error returned by a collaborator. -/
  | foreign (code : Nat)
  deriving DecidableEq, Repr

/-- Go `pb.Record`: the fields read by `records.go` (`GetValue()`,
`GetAuthor()`, `Signature`) and the record key. -/
structure Record where
  key : String
  value : Bytes
  author : String
  signature : Bytes
  deriving DecidableEq, Repr

/-- Go `pb.Message`, of which only `GetRecord()` is read; `none` is a `nil`
record. -/
structure Message where
  record : Option Record
  deriving DecidableEq, Repr

/-- Go `context.Context`.  A context is either an ambient one, or the context
obtained from a parent by `ctxfrac.WithDeadlineFraction`; the fraction is kept
as numerator and denominator (`0.3` is `3 / 10`). -/
inductive Context where
  | ambient (id : Nat)
  | deadlineFraction (parent : Context) (num den : Nat)
  deriving DecidableEq, Repr

/-- Go `ctxfrac.WithDeadlineFraction(ctx, num / den)`; the cancel function is
only deferred by the caller and is not modelled. -/
def WithDeadlineFraction (ctx : Context) (num den : Nat) : Context :=
  Context.deadlineFraction ctx num den

/-- One call of a collaborator, as recorded in the trace of an execution. -/
inductive Event where
  /-- Go `dht.peerstore.PubKey(p)`. -/
  | PubKey (p : PeerID)
  /-- Go `dht.peerstore.AddPubKey(p, pk)`. -/
  | AddPubKey (p : PeerID) (pk : PubKey)
  /-- Go `dht.getValueSingle(ctx, p, key)`. -/
  | getValueSingle (ctx : Context) (p : PeerID) (key : String)
  /-- Go `dht.GetValue(ctx, key)`. -/
  | GetValue (ctx : Context) (key : String)
  /-- Go `record.CheckRecordSig(r, pk)`; `pk` is the interface value passed,
  which Go allows to be `nil`. -/
  | CheckRecordSig (r : Record) (pk : Option PubKey)
  /-- Go `dht.Validator.VerifyRecord(r)`. -/
  | VerifyRecord (r : Record)
  deriving DecidableEq, Repr

/-- The collaborators of `records.go`, over an abstract world `W`. -/
structure Env (W : Type) where
  /-- Go `dht.peerstore.PubKey(p)`: a read of the key cache. -/
  PubKey : W → PeerID → Option PubKey
  /-- Go `dht.peerstore.AddPubKey(p, pk)`: a store that may fail. -/
  AddPubKey : W → PeerID → Dht.PubKey → Option Err × W
  /-- Go `dht.getValueSingle(ctx, p, key)`: the single-peer request. -/
  getValueSingle : W → Context → PeerID → String → Except Err Message × W
  /-- Go `dht.GetValue(ctx, key)`: the DHT lookup. -/
  GetValue : W → Context → String → Except Err Bytes × W
  /-- Go `routing.KeyForPublicKey(p)`. -/
  KeyForPublicKey : PeerID → String
  /-- Go `ci.UnmarshalPublicKey(val)`. -/
  UnmarshalPublicKey : Bytes → Except Err Dht.PubKey
  /-- Go `peer.IDFromPublicKey(pk)`. -/
  IDFromPublicKey : Dht.PubKey → Except Err PeerID
  /-- Go `record.CheckRecordSig(r, pk)`; `pk` is the interface value passed,
  which Go allows to be `nil`. -/
  CheckRecordSig : Record → Option Dht.PubKey → Option Err
  /-- Go `dht.Validator.VerifyRecord(r)`. -/
  VerifyRecord : Record → Option Err

/-- What an execution leaves behind: the returned value, the world after the
execution, and the collaborator calls made, in order. -/
structure Outcome (W α : Type) where
  ret : α
  world : W
  trace : List Event

variable {W : Type}

/-- Go `(dht *IpfsDHT) getPublicKeyFromNode(ctx, p)`.  Every `return` of the
source is either `(pk, nil)` or `(nil, err)`, hence the `Except`. -/
def getPublicKeyFromNode (env : Env W) (w : W) (ctx : Context) (p : PeerID) :
    Outcome W (Except Err PubKey) :=
  -- check locally, just in case...
  match env.PubKey w p with
  | some pk => ⟨.ok pk, w, [.PubKey p]⟩
  | none =>
    let pkkey := env.KeyForPublicKey p
    match env.getValueSingle w ctx p pkkey with
    | (.error err, w1) => ⟨.error err, w1, [.PubKey p, .getValueSingle ctx p pkkey]⟩
    | (.ok pmes, w1) =>
      -- node doesn't have key :(
      match pmes.record with
      | none =>
        ⟨.error (.nodeNotResponding p), w1, [.PubKey p, .getValueSingle ctx p pkkey]⟩
      | some record =>
        let val := record.value
        match env.UnmarshalPublicKey val with
        | .error err => ⟨.error err, w1, [.PubKey p, .getValueSingle ctx p pkkey]⟩
        | .ok pk =>
          match env.IDFromPublicKey pk with
          | .error err => ⟨.error err, w1, [.PubKey p, .getValueSingle ctx p pkkey]⟩
          | .ok id =>
            if id ≠ p then
              ⟨.error (.keyMismatch p), w1, [.PubKey p, .getValueSingle ctx p pkkey]⟩
            else
              -- ok! it's valid. we got it!
              ⟨.ok pk, w1, [.PubKey p, .getValueSingle ctx p pkkey]⟩

/-- Go `(dht *IpfsDHT) GetPublicKey(ctx, p)`.  The result is the Go pair
`(ci.PubKey, error)`. -/
def GetPublicKey (env : Env W) (w : W) (ctx : Context) (p : PeerID) :
    Outcome W (Option PubKey × Option Err) :=
  -- check locally.
  match env.PubKey w p with
  | some pk => ⟨(some pk, none), w, [.PubKey p]⟩
  | none =>
    -- ok, try the node itself. if they're overwhelmed or slow we can move on.
    let ctxT := WithDeadlineFraction ctx 3 10
    let node := getPublicKeyFromNode env w ctx p
    match node.ret with
    | .ok pk =>
      match env.AddPubKey node.world p pk with
      | (some err, w2) =>
        ⟨(some pk, some err), w2, .PubKey p :: node.trace ++ [.AddPubKey p pk]⟩
      | (none, w2) =>
        ⟨(some pk, none), w2, .PubKey p :: node.trace ++ [.AddPubKey p pk]⟩
    | .error _ =>
      -- last ditch effort: let's try the dht.
      let pkkey := env.KeyForPublicKey p
      match env.GetValue node.world ctxT pkkey with
      | (.error err, w2) =>
        ⟨(none, some err), w2, .PubKey p :: node.trace ++ [.GetValue ctxT pkkey]⟩
      | (.ok val, w2) =>
        match env.UnmarshalPublicKey val with
        | .error err =>
          ⟨(none, some err), w2, .PubKey p :: node.trace ++ [.GetValue ctxT pkkey]⟩
        | .ok pk =>
          let stored := env.AddPubKey w2 p pk
          ⟨(some pk, stored.1), stored.2,
            .PubKey p :: node.trace ++ [.GetValue ctxT pkkey, .AddPubKey p pk]⟩

/-- Go `(dht *IpfsDHT) verifyRecordLocally(r)`. -/
def verifyRecordLocally (env : Env W) (w : W) (r : Record) : Outcome W (Option Err) :=
  if r.signature.length > 0 then
    -- First, validate the signature
    let p : PeerID := r.author
    match env.PubKey w p with
    | none => ⟨some (.noPublicKey p), w, [.PubKey p]⟩
    | some pk =>
      match env.CheckRecordSig r (some pk) with
      | some err => ⟨some err, w, [.PubKey p, .CheckRecordSig r (some pk)]⟩
      | none =>
        ⟨env.VerifyRecord r, w,
          [.PubKey p, .CheckRecordSig r (some pk), .VerifyRecord r]⟩
  else
    ⟨env.VerifyRecord r, w, [.VerifyRecord r]⟩

/-- Go `(dht *IpfsDHT) verifyRecordOnline(ctx, r)`. -/
def verifyRecordOnline (env : Env W) (w : W) (ctx : Context) (r : Record) :
    Outcome W (Option Err) :=
  if r.signature.length > 0 then
    -- get the public key, search for it if necessary.
    let p : PeerID := r.author
    let res := GetPublicKey env w ctx p
    match res.ret with
    | (_, some err) => ⟨some err, res.world, res.trace⟩
    | (pk, none) =>
      match env.CheckRecordSig r pk with
      | some err => ⟨some err, res.world, res.trace ++ [.CheckRecordSig r pk]⟩
      | none =>
        ⟨env.VerifyRecord r, res.world,
          res.trace ++ [.CheckRecordSig r pk, .VerifyRecord r]⟩
  else
    ⟨env.VerifyRecord r, w, [.VerifyRecord r]⟩

/-! ## Reading a trace -/

/-- The event is a network operation: the single-peer request or the DHT
lookup. -/
def Event.isNetwork : Event → Bool
  | .getValueSingle _ _ _ => true
  | .GetValue _ _ => true
  | _ => false

/-- The event is a write to the peerstore. -/
def Event.isStore : Event → Bool
  | .AddPubKey _ _ => true
  | _ => false

/-- The event is a call of the signature checker. -/
def Event.isSigCheck : Event → Bool
  | .CheckRecordSig _ _ => true
  | _ => false

/-- The event is a call of the structural validator. -/
def Event.isValidator : Event → Bool
  | .VerifyRecord _ => true
  | _ => false

/-- The store calls of a trace, in order. -/
def storeCalls (t : List Event) : List Event := t.filter Event.isStore

/-! ## A concrete node, for evaluating the functions on explicit inputs -/

/-- A peerstore kept as an association list, newest binding first. -/
abbrev KeyStore := List (PeerID × PubKey)

/-- A node over `KeyStore` whose single-peer request answers `single`, whose
DHT lookup answers `dht`, and whose peerstore refuses every store when
`storeFails` is set.  Keys are serialised as one byte; key `n` derives to the
peer ID `"P"` when `n = 1`, to `"Q"` when `n = 2`, and has no derived ID
otherwise. -/
def testNode (single : Except Err Message) (dht : Except Err Bytes) (storeFails : Bool) :
    Env KeyStore where
  PubKey := fun s p => s.lookup p
  AddPubKey := fun s p pk => if storeFails then (some (.foreign 7), s) else (none, (p, pk) :: s)
  getValueSingle := fun s _ _ _ => (single, s)
  GetValue := fun s _ _ => (dht, s)
  KeyForPublicKey := fun p => "/pk/" ++ p
  UnmarshalPublicKey := fun val =>
    match val with
    | [n] => .ok ⟨n⟩
    | _ => .error (.foreign 1)
  IDFromPublicKey := fun pk =>
    if pk.handle = 1 then .ok "P" else if pk.handle = 2 then .ok "Q" else .error (.foreign 2)
  CheckRecordSig := fun r pk =>
    match pk with
    | some k => if r.signature = [k.handle] then none else some (.foreign 3)
    | none => some (.foreign 4)
  VerifyRecord := fun r => if r.key = "" then some (.foreign 5) else none

/-- A record signed by `"P"` with the key `1`. -/
def signedByP : Record := ⟨"k1", [10, 20], "P", [1]⟩

/-- An unsigned record claiming `"P"` as author. -/
def unsignedByP : Record := ⟨"k1", [10, 20], "P", []⟩

/-- The answer of a peer that returns a record carrying the serialised key
`n`. -/
def answerKey (n : Nat) : Except Err Message := .ok ⟨some ⟨"/pk/P", [n], "", []⟩⟩

/-- The identity-binding invariant of the key cache: every cached key derives
to the peer ID it is cached under. -/
def CacheBound (env : Env W) (w : W) : Prop :=
  ∀ q k, env.PubKey w q = some k → env.IDFromPublicKey k = .ok q

end Dht

/-!
# Cache composition of a blockstore (`blockstore/caching.go`)

A shallow embedding of `CacheOpts`, `DefaultCacheOpts` and `CachedBlockstore`.
The two layer constructors `newTwoQueueCachedBS` and `bloomCached`, and
`metrics.CtxSubScope`, live outside the source tree and are taken as
parameters, bundled in `Env`; the blockstore type `B` and the context type `C`
are abstract.  Every constructor call is recorded, in order, so that "the layer
was never built" is a statement about the recorded calls.
-/

namespace Blockstore

/-- Go `int` arithmetic on a 64-bit platform: the `int` that an expression of
mathematical value `x` evaluates to (two's complement wrap-around). -/
def wrapInt (x : Int) : Int := (x + 2 ^ 63) % 2 ^ 64 - 2 ^ 63

/-- Go `error` values of `caching.go`.  The two `errors.New` sites have a
constructor each; `foreign` stands for an error returned by a layer
constructor. -/
inductive Err where
  /-- Go `errors.New("all options for cache need to be greater than zero")`. -/
  | optionsNegative
  /-- Go `errors.New("bloom filter hash count can't be 0 when there is size set")`. -/
  | hashCountZero
  /-- An error returned by a layer constructor. -/
  | foreign (code : Nat)
  deriving DecidableEq, Repr

/-- Go `CacheOpts`. -/
structure CacheOpts where
  HasBloomFilterSize : Int
  HasBloomFilterHashes : Int
  HasTwoQueueCacheSize : Int
  deriving DecidableEq, Repr

/-- Go `DefaultCacheOpts()`. -/
def DefaultCacheOpts : CacheOpts :=
  { HasBloomFilterSize := ((512 <<< 10 : Nat) : Int)
    HasBloomFilterHashes := 7
    HasTwoQueueCacheSize := ((64 <<< 10 : Nat) : Int) }

/-- The collaborators of `CachedBlockstore`.  A constructor returns the Go pair
`(store, error)`; a store that is `nil` is `none`. -/
structure Env (B C : Type) where
  /-- Go `metrics.CtxSubScope(ctx, name)`. -/
  CtxSubScope : C → String → C
  /-- Go `newTwoQueueCachedBS(ctx, bs, size)`. -/
  newTwoQueueCachedBS : C → Option B → Int → Option B × Option Err
  /-- Go `bloomCached(ctx, bs, bloomSize, hashCount)`. -/
  bloomCached : C → Option B → Int → Int → Option B × Option Err

/-- One call of a layer constructor. -/
inductive Call (B C : Type) where
  /-- Go `newTwoQueueCachedBS(ctx, bs, size)`. -/
  | newTwoQueueCachedBS (ctx : C) (bs : Option B) (size : Int)
  /-- Go `bloomCached(ctx, bs, bloomSize, hashCount)`. -/
  | bloomCached (ctx : C) (bs : Option B) (bloomSize hashCount : Int)
  deriving DecidableEq, Repr

/-- What `CachedBlockstore` returns, the named results `cbs` and `err`, together
with the constructor calls it made, in order. -/
structure Built (B C : Type) where
  cbs : Option B
  err : Option Err
  calls : List (Call B C)
  deriving DecidableEq, Repr

variable {B C : Type}

/-- Go `CachedBlockstore(ctx, bs, opts)`. -/
def CachedBlockstore (env : Env B C) (ctx : C) (bs : Option B) (opts : CacheOpts) :
    Built B C :=
  let cbs := bs
  if opts.HasBloomFilterSize < 0 ∨ opts.HasBloomFilterHashes < 0 ∨
      opts.HasTwoQueueCacheSize < 0 then
    ⟨none, some .optionsNegative, []⟩
  else if opts.HasBloomFilterSize ≠ 0 ∧ opts.HasBloomFilterHashes = 0 then
    ⟨none, some .hashCountZero, []⟩
  else
    let ctx := env.CtxSubScope ctx "bs.cache"
    let afterTwoQueue : Built B C :=
      if opts.HasTwoQueueCacheSize > 0 then
        let made := env.newTwoQueueCachedBS ctx cbs opts.HasTwoQueueCacheSize
        ⟨made.1, made.2, [.newTwoQueueCachedBS ctx cbs opts.HasTwoQueueCacheSize]⟩
      else
        ⟨cbs, none, []⟩
    if opts.HasBloomFilterSize ≠ 0 then
      -- *8 because of bytes to bits conversion
      let made := env.bloomCached ctx afterTwoQueue.cbs
        (wrapInt (opts.HasBloomFilterSize * 8)) opts.HasBloomFilterHashes
      ⟨made.1, made.2, afterTwoQueue.calls ++
        [.bloomCached ctx afterTwoQueue.cbs (wrapInt (opts.HasBloomFilterSize * 8))
          opts.HasBloomFilterHashes]⟩
    else
      afterTwoQueue

/-! ## Concrete layers, for evaluating `CachedBlockstore` on explicit inputs -/

/-- A blockstore described by the layers it is made of; `missing` is what a
layer built over a `nil` store wraps. -/
inductive Store where
  | base (id : Nat)
  | missing
  | twoQueue (inner : Store) (size : Int)
  | bloom (inner : Store) (bits hashes : Int)
  deriving DecidableEq, Repr

/-- Layer constructors that build the layer they are asked for; the two-queue
constructor fails with error `1` when `twoQueueFails` is set, the bloom
constructor with error `2` when `bloomFails` is set.  A context is the path of
its scopes. -/
def testLayers (twoQueueFails bloomFails : Bool) : Env Store String where
  CtxSubScope := fun ctx name => ctx ++ "/" ++ name
  newTwoQueueCachedBS := fun _ bs size =>
    if twoQueueFails then (none, some (.foreign 1))
    else (some (.twoQueue (bs.getD .missing) size), none)
  bloomCached := fun _ bs bloomSize hashCount =>
    if bloomFails then (none, some (.foreign 2))
    else (some (.bloom (bs.getD .missing) bloomSize hashCount), none)

end Blockstore

namespace Dht

variable {W : Type}

/-! ## Offline verification -/

/-- C1: for a record with a non-empty signature whose author's key is absent
from the peerstore, `verifyRecordLocally` returns the key-not-found error
`do not have public key for <author>`; the only collaborator it calls is the
local lookup `PubKey(author)`, so neither `getValueSingle` nor `GetValue`, nor
the signature checker, nor the validator is invoked. -/
theorem verifyRecordLocally_absent_key (env : Env W) (w : W) (r : Record)
    (hsig : r.signature ≠ []) (habsent : env.PubKey w r.author = none) :
    (verifyRecordLocally env w r).ret = some (Err.noPublicKey r.author) ∧
    (verifyRecordLocally env w r).trace = [Event.PubKey r.author] ∧
    (∀ e ∈ (verifyRecordLocally env w r).trace,
      e.isNetwork = false ∧ e.isSigCheck = false ∧ e.isValidator = false) := by
  have hlen : r.signature.length > 0 := List.length_pos.mpr hsig
  simp [verifyRecordLocally, hlen, habsent, Event.isNetwork, Event.isSigCheck,
    Event.isValidator]

/-- Witness for C1: the signed record of `"P"` checked against an empty
peerstore. -/
theorem verifyRecordLocally_absent_key_witness :
    (verifyRecordLocally (testNode (answerKey 1) (.ok [1]) false) [] signedByP).ret
        = some (Err.noPublicKey "P") ∧
    (verifyRecordLocally (testNode (answerKey 1) (.ok [1]) false) [] signedByP).trace
        = [Event.PubKey "P"] :=
  have h := verifyRecordLocally_absent_key (testNode (answerKey 1) (.ok [1]) false) []
    signedByP (by decide) (by decide)
  ⟨h.1, h.2.1⟩

/-- C2: for every record, signed or not, and every peerstore state,
`verifyRecordLocally` makes no network call (`getValueSingle`, `GetValue`) and
no store call, leaves the world (hence the key cache) as it found it, and the
only peerstore lookup it can make is `PubKey(author)`. -/
theorem verifyRecordLocally_local_only (env : Env W) (w : W) (r : Record) :
    (verifyRecordLocally env w r).world = w ∧
    (∀ e ∈ (verifyRecordLocally env w r).trace,
      e.isNetwork = false ∧ e.isStore = false) ∧
    (∀ q, Event.PubKey q ∈ (verifyRecordLocally env w r).trace → q = r.author) := by
  by_cases hlen : r.signature.length > 0
  · cases hk : env.PubKey w r.author with
    | none => simp [verifyRecordLocally, hlen, hk, Event.isNetwork, Event.isStore]
    | some pk =>
      cases hc : env.CheckRecordSig r (some pk) <;>
        simp [verifyRecordLocally, hlen, hk, hc, Event.isNetwork, Event.isStore]
  · simp [verifyRecordLocally, hlen, Event.isNetwork, Event.isStore]

/-! ## The direct-peer tier -/

/-- On a cache miss the direct-peer tier makes the second local lookup and one
single-peer request, under the context it was given, and nothing else. -/
theorem getPublicKeyFromNode_miss (env : Env W) (w : W) (ctx : Context) (p : PeerID)
    (hmiss : env.PubKey w p = none) :
    (getPublicKeyFromNode env w ctx p).trace =
        [.PubKey p, .getValueSingle ctx p (env.KeyForPublicKey p)] ∧
    (getPublicKeyFromNode env w ctx p).world =
        (env.getValueSingle w ctx p (env.KeyForPublicKey p)).2 := by
  rcases hs : env.getValueSingle w ctx p (env.KeyForPublicKey p) with ⟨res, w1⟩
  cases res with
  | error err => simp [getPublicKeyFromNode, hmiss, hs]
  | ok pmes =>
    cases hr : pmes.record with
    | none => simp [getPublicKeyFromNode, hmiss, hs, hr]
    | some record =>
      cases hu : env.UnmarshalPublicKey record.value with
      | error err => simp [getPublicKeyFromNode, hmiss, hs, hr, hu]
      | ok pk =>
        cases hi : env.IDFromPublicKey pk with
        | error err => simp [getPublicKeyFromNode, hmiss, hs, hr, hu, hi]
        | ok id =>
          by_cases hne : id = p <;> simp [getPublicKeyFromNode, hmiss, hs, hr, hu, hi, hne]

/-- On a cache miss, a key returned by the direct-peer tier was unmarshalled
from the record the peer sent and derives to the queried peer ID. -/
theorem getPublicKeyFromNode_ok (env : Env W) (w : W) (ctx : Context) (p : PeerID)
    (pk : PubKey) (hmiss : env.PubKey w p = none)
    (hok : (getPublicKeyFromNode env w ctx p).ret = .ok pk) :
    env.IDFromPublicKey pk = .ok p ∧
    ∃ pmes record, (env.getValueSingle w ctx p (env.KeyForPublicKey p)).1 = .ok pmes ∧
      pmes.record = some record ∧ env.UnmarshalPublicKey record.value = .ok pk := by
  rcases hs : env.getValueSingle w ctx p (env.KeyForPublicKey p) with ⟨res, w1⟩
  cases res with
  | error err => simp [getPublicKeyFromNode, hmiss, hs] at hok
  | ok pmes =>
    cases hr : pmes.record with
    | none => simp [getPublicKeyFromNode, hmiss, hs, hr] at hok
    | some record =>
      cases hu : env.UnmarshalPublicKey record.value with
      | error err => simp [getPublicKeyFromNode, hmiss, hs, hr, hu] at hok
      | ok pk1 =>
        cases hi : env.IDFromPublicKey pk1 with
        | error err => simp [getPublicKeyFromNode, hmiss, hs, hr, hu, hi] at hok
        | ok id =>
          by_cases hne : id = p
          · simp [getPublicKeyFromNode, hmiss, hs, hr, hu, hi, hne] at hok
            subst hok
            subst hne
            exact ⟨hi, pmes, record, rfl, hr, hu⟩
          · simp [getPublicKeyFromNode, hmiss, hs, hr, hu, hi, hne] at hok

/-- A peer that answers with a well-formed key deriving to another peer ID
makes the direct-peer tier fail with the mismatch error. -/
theorem getPublicKeyFromNode_mismatch (env : Env W) (w w1 : W) (ctx : Context)
    (p : PeerID) (record : Record) (K : PubKey) (id : PeerID)
    (hmiss : env.PubKey w p = none)
    (hsingle : env.getValueSingle w ctx p (env.KeyForPublicKey p) = (.ok ⟨some record⟩, w1))
    (hK : env.UnmarshalPublicKey record.value = .ok K)
    (hid : env.IDFromPublicKey K = .ok id) (hne : id ≠ p) :
    getPublicKeyFromNode env w ctx p =
      ⟨.error (.keyMismatch p), w1,
        [.PubKey p, .getValueSingle ctx p (env.KeyForPublicKey p)]⟩ := by
  simp [getPublicKeyFromNode, hmiss, hsingle, hK, hid, hne]

/-! ## The four ways `GetPublicKey` can run -/

/-- Every execution of `GetPublicKey` has one of four shapes: a cache hit; a
cache miss answered by the direct-peer tier, followed by one store; a cache
miss on which both network tiers fail; a cache miss answered by the DHT tier,
followed by one store. -/
theorem GetPublicKey_shapes (env : Env W) (w : W) (ctx : Context) (p : PeerID) :
    (∃ pk, env.PubKey w p = some pk ∧
      GetPublicKey env w ctx p = ⟨(some pk, none), w, [.PubKey p]⟩) ∨
    (env.PubKey w p = none ∧ ∃ pk,
      (getPublicKeyFromNode env w ctx p).ret = .ok pk ∧
      GetPublicKey env w ctx p =
        ⟨(some pk, (env.AddPubKey (getPublicKeyFromNode env w ctx p).world p pk).1),
         (env.AddPubKey (getPublicKeyFromNode env w ctx p).world p pk).2,
         [.PubKey p, .PubKey p, .getValueSingle ctx p (env.KeyForPublicKey p),
          .AddPubKey p pk]⟩) ∨
    (env.PubKey w p = none ∧ ∃ e err,
      (getPublicKeyFromNode env w ctx p).ret = .error e ∧
      ((env.GetValue (getPublicKeyFromNode env w ctx p).world (WithDeadlineFraction ctx 3 10)
          (env.KeyForPublicKey p)).1 = .error err ∨
       ∃ val, (env.GetValue (getPublicKeyFromNode env w ctx p).world
          (WithDeadlineFraction ctx 3 10) (env.KeyForPublicKey p)).1 = .ok val ∧
          env.UnmarshalPublicKey val = .error err) ∧
      GetPublicKey env w ctx p =
        ⟨(none, some err),
         (env.GetValue (getPublicKeyFromNode env w ctx p).world (WithDeadlineFraction ctx 3 10)
            (env.KeyForPublicKey p)).2,
         [.PubKey p, .PubKey p, .getValueSingle ctx p (env.KeyForPublicKey p),
          .GetValue (WithDeadlineFraction ctx 3 10) (env.KeyForPublicKey p)]⟩) ∨
    (env.PubKey w p = none ∧ ∃ e val pk,
      (getPublicKeyFromNode env w ctx p).ret = .error e ∧
      (env.GetValue (getPublicKeyFromNode env w ctx p).world (WithDeadlineFraction ctx 3 10)
          (env.KeyForPublicKey p)).1 = .ok val ∧
      env.UnmarshalPublicKey val = .ok pk ∧
      GetPublicKey env w ctx p =
        ⟨(some pk,
          (env.AddPubKey (env.GetValue (getPublicKeyFromNode env w ctx p).world
            (WithDeadlineFraction ctx 3 10) (env.KeyForPublicKey p)).2 p pk).1),
         (env.AddPubKey (env.GetValue (getPublicKeyFromNode env w ctx p).world
            (WithDeadlineFraction ctx 3 10) (env.KeyForPublicKey p)).2 p pk).2,
         [.PubKey p, .PubKey p, .getValueSingle ctx p (env.KeyForPublicKey p),
          .GetValue (WithDeadlineFraction ctx 3 10) (env.KeyForPublicKey p),
          .AddPubKey p pk]⟩) := by
  cases hk : env.PubKey w p with
  | some pk => exact Or.inl ⟨pk, rfl, by simp [GetPublicKey, hk]⟩
  | none =>
    right
    have htr := (getPublicKeyFromNode_miss env w ctx p hk).1
    cases hn : (getPublicKeyFromNode env w ctx p).ret with
    | ok pk =>
      left
      refine ⟨rfl, pk, rfl, ?_⟩
      rcases ha : env.AddPubKey (getPublicKeyFromNode env w ctx p).world p pk with ⟨err, w2⟩
      cases err <;> simp [GetPublicKey, hk, hn, ha, htr]
    | error e =>
      right
      rcases hg : env.GetValue (getPublicKeyFromNode env w ctx p).world
        (WithDeadlineFraction ctx 3 10) (env.KeyForPublicKey p) with ⟨res, w2⟩
      cases res with
      | error err =>
        left
        exact ⟨rfl, e, err, rfl, Or.inl rfl, by simp [GetPublicKey, hk, hn, hg, htr]⟩
      | ok val =>
        cases hu : env.UnmarshalPublicKey val with
        | error err =>
          left
          exact ⟨rfl, e, err, rfl, Or.inr ⟨val, rfl, hu⟩,
            by simp [GetPublicKey, hk, hn, hg, hu, htr]⟩
        | ok pk =>
          right
          exact ⟨rfl, e, val, pk, rfl, rfl, hu, by simp [GetPublicKey, hk, hn, hg, hu, htr]⟩

/-! ## Identity binding -/

/-- C3, counterexample: peer `"P"` is not cached, the peer answers with the
well-formed key `2`, which derives to `"Q"`, and the DHT lookup then yields the
bytes of that same key `2`.  `GetPublicKey` stores key `2` under `"P"`: the
mismatched key is stored after all. -/
theorem mismatched_key_stored_by_dht_tier :
    (testNode (answerKey 2) (.ok [2]) false).PubKey [] "P" = none ∧
    (testNode (answerKey 2) (.ok [2]) false).getValueSingle [] (.ambient 0) "P" "/pk/P"
      = (.ok ⟨some ⟨"/pk/P", [2], "", []⟩⟩, []) ∧
    (testNode (answerKey 2) (.ok [2]) false).UnmarshalPublicKey [2] = .ok ⟨2⟩ ∧
    (testNode (answerKey 2) (.ok [2]) false).IDFromPublicKey ⟨2⟩ = .ok "Q" ∧
    "Q" ≠ "P" ∧
    Event.AddPubKey "P" ⟨2⟩ ∈
      (GetPublicKey (testNode (answerKey 2) (.ok [2]) false) [] (.ambient 0) "P").trace ∧
    (GetPublicKey (testNode (answerKey 2) (.ok [2]) false) [] (.ambient 0) "P").world
      = [("P", ⟨2⟩)] := by
  refine ⟨rfl, rfl, rfl, rfl, by decide, by decide, by decide⟩

/-- C3, amended: when `p` is not cached and the peer answers with a record
whose value unmarshals to a key `K` deriving to an ID other than `p`, the
direct-peer tier fails with the mismatch error, `GetPublicKey` makes no store
call before the DHT lookup, and it does invoke `GetValue` on
`KeyForPublicKey(p)`.  If that lookup yields bytes unmarshalling to `K3`, the
key returned is `K3`, the error returned is the result of storing it, and the
only store call of the execution is `AddPubKey(p, K3)`.  The key `K` is stored
only when the DHT lookup itself yields `K`. -/
theorem GetPublicKey_mismatch_falls_through (env : Env W) (w w1 : W) (ctx : Context)
    (p : PeerID) (record : Record) (K : PubKey) (id : PeerID)
    (hmiss : env.PubKey w p = none)
    (hsingle : env.getValueSingle w ctx p (env.KeyForPublicKey p) = (.ok ⟨some record⟩, w1))
    (hK : env.UnmarshalPublicKey record.value = .ok K)
    (hid : env.IDFromPublicKey K = .ok id) (hne : id ≠ p) :
    (getPublicKeyFromNode env w ctx p).ret = .error (.keyMismatch p) ∧
    ∃ c rest,
      (GetPublicKey env w ctx p).trace =
        [.PubKey p, .PubKey p, .getValueSingle ctx p (env.KeyForPublicKey p),
         .GetValue c (env.KeyForPublicKey p)] ++ rest ∧
      (∀ val w2 K3, env.GetValue w1 c (env.KeyForPublicKey p) = (.ok val, w2) →
        env.UnmarshalPublicKey val = .ok K3 →
        (GetPublicKey env w ctx p).ret = (some K3, (env.AddPubKey w2 p K3).1) ∧
        rest = [.AddPubKey p K3]) ∧
      (∀ q, Event.AddPubKey q K ∈ (GetPublicKey env w ctx p).trace →
        q = p ∧ ∃ val w2, env.GetValue w1 c (env.KeyForPublicKey p) = (.ok val, w2) ∧
          env.UnmarshalPublicKey val = .ok K) := by
  have hnode := getPublicKeyFromNode_mismatch env w w1 ctx p record K id hmiss hsingle hK hid hne
  refine ⟨by rw [hnode], WithDeadlineFraction ctx 3 10, ?_⟩
  rcases hg : env.GetValue w1 (WithDeadlineFraction ctx 3 10) (env.KeyForPublicKey p)
    with ⟨res, w2⟩
  cases res with
  | error err =>
    exact ⟨[], by simp [GetPublicKey, hmiss, hnode, hg], by simp,
      by simp [GetPublicKey, hmiss, hnode, hg]⟩
  | ok val =>
    cases hu : env.UnmarshalPublicKey val with
    | error err =>
      refine ⟨[], by simp [GetPublicKey, hmiss, hnode, hg, hu], ?_,
        by simp [GetPublicKey, hmiss, hnode, hg, hu]⟩
      intro val2 w3 K3 h1 h2
      simp only [Prod.mk.injEq, Except.ok.injEq] at h1
      rw [← h1.1, hu] at h2
      cases h2
    | ok pk =>
      refine ⟨[.AddPubKey p pk], by simp [GetPublicKey, hmiss, hnode, hg, hu], ?_, ?_⟩
      · intro val2 w3 K3 h1 h2
        simp only [Prod.mk.injEq, Except.ok.injEq] at h1
        rw [← h1.1, hu] at h2
        cases h2
        rw [← h1.2]
        simp [GetPublicKey, hmiss, hnode, hg, hu]
      · intro q hq
        simp [GetPublicKey, hmiss, hnode, hg, hu] at hq
        exact ⟨hq.1, val, w2, rfl, by rw [hu, hq.2]⟩

/-- Witness for C3 (amended): the peer answers for `"P"` with key `2` (which
derives to `"Q"`), the DHT yields key `1`; key `1` is returned and is the only
key stored. -/
theorem GetPublicKey_mismatch_falls_through_witness :
    (getPublicKeyFromNode (testNode (answerKey 2) (.ok [1]) false) [] (.ambient 0) "P").ret
      = .error (.keyMismatch "P") ∧
    (GetPublicKey (testNode (answerKey 2) (.ok [1]) false) [] (.ambient 0) "P").ret
      = (some ⟨1⟩, none) ∧
    storeCalls (GetPublicKey (testNode (answerKey 2) (.ok [1]) false) [] (.ambient 0) "P").trace
      = [.AddPubKey "P" ⟨1⟩] := by
  have h := GetPublicKey_mismatch_falls_through (testNode (answerKey 2) (.ok [1]) false)
    [] [] (.ambient 0) "P" ⟨"/pk/P", [2], "", []⟩ ⟨2⟩ "Q" rfl rfl rfl rfl (by decide)
  obtain ⟨h1, c, rest, htrace, hdht, -⟩ := h
  exact ⟨h1, (hdht [1] [] ⟨1⟩ rfl rfl).1, by decide⟩

/-- C4, counterexample: `"P"` is not cached, the peer cannot be reached, and the
DHT lookup yields the bytes of key `2`, which derives to `"Q"`.  `GetPublicKey`
stores key `2` under `"P"`: the cache was bound before the call (it was empty)
and is not bound after it. -/
theorem dht_tier_stores_unbound_key :
    Event.AddPubKey "P" ⟨2⟩ ∈
      (GetPublicKey (testNode (.error (.foreign 9)) (.ok [2]) false) [] (.ambient 0) "P").trace ∧
    (testNode (.error (.foreign 9)) (.ok [2]) false).IDFromPublicKey ⟨2⟩ = .ok "Q" ∧
    "Q" ≠ "P" ∧
    CacheBound (testNode (.error (.foreign 9)) (.ok [2]) false) [] ∧
    ¬ CacheBound (testNode (.error (.foreign 9)) (.ok [2]) false)
      (GetPublicKey (testNode (.error (.foreign 9)) (.ok [2]) false) [] (.ambient 0) "P").world := by
  refine ⟨by decide, rfl, by decide, ?_, ?_⟩
  · intro q k h
    simp [testNode, List.lookup] at h
  · intro h
    have h2 : (Except.ok "Q" : Except Err PeerID) = .ok "P" := h "P" ⟨2⟩ (by decide)
    exact absurd (Except.ok.inj h2) (by decide)

/-- C4, amended: every store call of `GetPublicKey(ctx, p)` is made under `p`;
a key stored in the direct-peer tier derives to `p`, and a key stored in the DHT
tier is the key unmarshalled from the bytes `GetValue` returned, stored without
a check of its derived ID.  Hence, over a peerstore whose store call adds at
most the binding it is given and a network that leaves the cache bound, a call
in which the key obtained from the DHT tier (if any) derives to `p` preserves
the invariant that every cached key derives to the ID it is cached under. -/
theorem GetPublicKey_store_binding (env : Env W) (w : W) (ctx : Context) (p : PeerID) :
    (∀ q k, Event.AddPubKey q k ∈ (GetPublicKey env w ctx p).trace →
      q = p ∧
      (((getPublicKeyFromNode env w ctx p).ret = .ok k ∧ env.IDFromPublicKey k = .ok p) ∨
       ((∃ e, (getPublicKeyFromNode env w ctx p).ret = .error e) ∧
        ∃ c val, Event.GetValue c (env.KeyForPublicKey p) ∈ (GetPublicKey env w ctx p).trace ∧
          (env.GetValue (getPublicKeyFromNode env w ctx p).world c
            (env.KeyForPublicKey p)).1 = .ok val ∧
          env.UnmarshalPublicKey val = .ok k))) ∧
    ((∀ w0 q k q1 k1, env.PubKey (env.AddPubKey w0 q k).2 q1 = some k1 →
        env.PubKey w0 q1 = some k1 ∨ (q1 = q ∧ k1 = k)) →
     (∀ w0 c q key, CacheBound env w0 → CacheBound env (env.getValueSingle w0 c q key).2) →
     (∀ w0 c key, CacheBound env w0 → CacheBound env (env.GetValue w0 c key).2) →
     (∀ c val k, (env.GetValue (getPublicKeyFromNode env w ctx p).world c
          (env.KeyForPublicKey p)).1 = .ok val →
        env.UnmarshalPublicKey val = .ok k → env.IDFromPublicKey k = .ok p) →
     CacheBound env w → CacheBound env (GetPublicKey env w ctx p).world) := by
  rcases GetPublicKey_shapes env w ctx p with
    ⟨pk, hk, h⟩ | ⟨hk, pk, hn, h⟩ | ⟨hk, e, err, hn, -, h⟩ | ⟨hk, e, val, pk, hn, hg, hu, h⟩
  · refine ⟨by simp [h], ?_⟩
    intro _ _ _ _ hb
    rw [h]
    exact hb
  · have hbind := (getPublicKeyFromNode_ok env w ctx p pk hk hn).1
    refine ⟨?_, ?_⟩
    · intro q k hq
      simp [h] at hq
      obtain ⟨rfl, rfl⟩ := hq
      exact ⟨rfl, Or.inl ⟨hn, hbind⟩⟩
    · intro hstore hsingle _ _ hb
      rw [h]
      have hw := (getPublicKeyFromNode_miss env w ctx p hk).2
      have hb1 : CacheBound env (getPublicKeyFromNode env w ctx p).world := by
        rw [hw]
        exact hsingle w ctx p _ hb
      intro q1 k1 hq1
      rcases hstore _ _ _ _ _ hq1 with h1 | ⟨rfl, rfl⟩
      · exact hb1 q1 k1 h1
      · exact hbind
  · refine ⟨by simp [h], ?_⟩
    intro _ hsingle hlookup _ hb
    rw [h]
    have hw := (getPublicKeyFromNode_miss env w ctx p hk).2
    apply hlookup
    rw [hw]
    exact hsingle w ctx p _ hb
  · refine ⟨?_, ?_⟩
    · intro q k hq
      simp [h] at hq
      obtain ⟨rfl, rfl⟩ := hq
      refine ⟨rfl, Or.inr ⟨⟨e, hn⟩, WithDeadlineFraction ctx 3 10, val, ?_, hg, hu⟩⟩
      simp [h]
    · intro hstore hsingle hlookup hdht hb
      rw [h]
      have hw := (getPublicKeyFromNode_miss env w ctx p hk).2
      have hb1 : CacheBound env (getPublicKeyFromNode env w ctx p).world := by
        rw [hw]
        exact hsingle w ctx p _ hb
      have hb2 := hlookup _ (WithDeadlineFraction ctx 3 10) (env.KeyForPublicKey p) hb1
      intro q1 k1 hq1
      rcases hstore _ _ _ _ _ hq1 with h1 | ⟨rfl, rfl⟩
      · exact hb2 q1 k1 h1
      · exact hdht _ _ _ hg hu

/-- Witness for C4 (amended): the peer cannot be reached and the DHT yields key
`1`, which derives to `"P"`; the binding `"P" -> 1` is stored and the cache is
still bound. -/
theorem GetPublicKey_store_binding_witness :
    (GetPublicKey (testNode (.error (.foreign 9)) (.ok [1]) false) [] (.ambient 0) "P").world
      = [("P", ⟨1⟩)] ∧
    CacheBound (testNode (.error (.foreign 9)) (.ok [1]) false)
      (GetPublicKey (testNode (.error (.foreign 9)) (.ok [1]) false) [] (.ambient 0) "P").world := by
  refine ⟨by decide, ?_⟩
  refine (GetPublicKey_store_binding (testNode (.error (.foreign 9)) (.ok [1]) false) []
    (.ambient 0) "P").2 ?_ ?_ ?_ ?_ ?_
  · intro w0 q k q1 k1 h
    simp only [testNode, Bool.false_eq_true, if_false, List.lookup] at h
    by_cases hq : q1 = q
    · subst hq
      simp at h
      exact Or.inr ⟨rfl, h.symm⟩
    · have hbeq : (q1 == q) = false := by simpa using hq
      rw [hbeq] at h
      exact Or.inl h
  · intro w0 c q key hb
    exact hb
  · intro w0 c key hb
    exact hb
  · intro c val k hval hk
    have hv : val = [1] := by
      have : (Except.ok [1] : Except Err Bytes) = .ok val := hval
      exact (Except.ok.inj this).symm
    subst hv
    have hk1 : (Except.ok ⟨1⟩ : Except Err PubKey) = .ok k := hk
    rw [← Except.ok.inj hk1]
    rfl
  · intro q k h
    simp [testNode, List.lookup] at h

/-! ## Deadlines of the two network tiers -/

/-- A context derived by `WithDeadlineFraction` is not the context it was
derived from. -/
theorem WithDeadlineFraction_ne (ctx : Context) (num den : Nat) :
    WithDeadlineFraction ctx num den ≠ ctx := by
  intro h
  have hs := congrArg sizeOf h
  simp [WithDeadlineFraction] at hs
  omega

/-- C5, what the code does: on a cache miss the single-peer request is issued
under the ambient context `ctx` itself, and every DHT lookup of the execution
is issued under `WithDeadlineFraction(ctx, 0.3)`, a context different from the
ambient one; when the direct-peer tier fails that DHT lookup does take place.
The fraction-limited context goes to the DHT tier, not to the direct-peer
tier. -/
theorem GetPublicKey_tier_contexts (env : Env W) (w : W) (ctx : Context) (p : PeerID)
    (hmiss : env.PubKey w p = none) :
    Event.getValueSingle ctx p (env.KeyForPublicKey p) ∈ (GetPublicKey env w ctx p).trace ∧
    (∀ c q key, Event.getValueSingle c q key ∈ (GetPublicKey env w ctx p).trace → c = ctx) ∧
    (∀ c key, Event.GetValue c key ∈ (GetPublicKey env w ctx p).trace →
      c = WithDeadlineFraction ctx 3 10 ∧ c ≠ ctx) ∧
    ((∃ e, (getPublicKeyFromNode env w ctx p).ret = .error e) →
      Event.GetValue (WithDeadlineFraction ctx 3 10) (env.KeyForPublicKey p)
        ∈ (GetPublicKey env w ctx p).trace) := by
  have hne := WithDeadlineFraction_ne ctx 3 10
  rcases GetPublicKey_shapes env w ctx p with
    ⟨pk, hk, -⟩ | ⟨-, pk, hn, h⟩ | ⟨-, e, err, hn, -, h⟩ | ⟨-, e, val, pk, hn, -, -, h⟩
  · rw [hmiss] at hk
    cases hk
  · rw [h]
    simp only [hn]
    simp
    intro c _ _ hc _ _
    exact hc
  · rw [h]
    simp
    exact ⟨fun c _ _ hc _ _ => hc, hne⟩
  · rw [h]
    simp
    exact ⟨fun c _ _ hc _ _ => hc, hne⟩

/-- Witness for C5: with `"P"` not cached and the peer unreachable, the
single-peer request runs under the ambient context and the DHT lookup under
the `0.3` fraction of it. -/
theorem GetPublicKey_tier_contexts_witness :
    (GetPublicKey (testNode (.error (.foreign 9)) (.ok [1]) false) [] (.ambient 0) "P").trace
      = [.PubKey "P", .PubKey "P", .getValueSingle (.ambient 0) "P" "/pk/P",
         .GetValue (.deadlineFraction (.ambient 0) 3 10) "/pk/P", .AddPubKey "P" ⟨1⟩] ∧
    Event.getValueSingle (.ambient 0) "P" "/pk/P" ∈
      (GetPublicKey (testNode (.error (.foreign 9)) (.ok [1]) false) [] (.ambient 0) "P").trace :=
  ⟨by decide,
   (GetPublicKey_tier_contexts (testNode (.error (.foreign 9)) (.ok [1]) false) []
      (.ambient 0) "P" rfl).1⟩

/-! ## Shape of the result of `GetPublicKey` -/

/-- `GetPublicKey` never returns a `nil` key with a `nil` error: a `nil` error
comes with a key. -/
theorem GetPublicKey_key_of_nil_error (env : Env W) (w : W) (ctx : Context) (p : PeerID)
    (pk : Option PubKey) (h : (GetPublicKey env w ctx p).ret = (pk, none)) :
    ∃ k, pk = some k := by
  rcases GetPublicKey_shapes env w ctx p with
    ⟨k, -, hs⟩ | ⟨-, k, -, hs⟩ | ⟨-, e, err, -, -, hs⟩ | ⟨-, e, val, k, -, -, -, hs⟩
  all_goals
    rw [hs] at h
    simp only [Prod.mk.injEq] at h
  · exact ⟨k, h.1.symm⟩
  · exact ⟨k, h.1.symm⟩
  · exact absurd h.2 (by simp)
  · exact ⟨k, h.1.symm⟩

/-! ## Success of a verification -/

/-- C6: `verifyRecordOnline` returns `nil` exactly when the validator accepts
the record and, if the record is signed, `GetPublicKey` resolves the author to
a key `k` (key `k`, `nil` error) that passes `CheckRecordSig`;
`verifyRecordLocally` returns `nil` exactly when the validator accepts the
record and, if the record is signed, the peerstore holds a key `k` of the
author that passes `CheckRecordSig`. -/
theorem verifyRecord_success_iff (env : Env W) (w : W) (ctx : Context) (r : Record) :
    ((verifyRecordOnline env w ctx r).ret = none ↔
      env.VerifyRecord r = none ∧
      (r.signature ≠ [] → ∃ k, (GetPublicKey env w ctx r.author).ret = (some k, none) ∧
        env.CheckRecordSig r (some k) = none)) ∧
    ((verifyRecordLocally env w r).ret = none ↔
      env.VerifyRecord r = none ∧
      (r.signature ≠ [] → ∃ k, env.PubKey w r.author = some k ∧
        env.CheckRecordSig r (some k) = none)) := by
  by_cases hsig : r.signature = []
  · simp [verifyRecordOnline, verifyRecordLocally, hsig]
  · have hlen : r.signature.length > 0 := List.length_pos.mpr hsig
    constructor
    · rcases hres : (GetPublicKey env w ctx r.author).ret with ⟨pk, err⟩
      cases err with
      | some e => simp [verifyRecordOnline, hlen, hres, hsig]
      | none =>
        obtain ⟨k, rfl⟩ := GetPublicKey_key_of_nil_error env w ctx r.author pk hres
        cases hc : env.CheckRecordSig r (some k) <;>
          simp [verifyRecordOnline, hlen, hres, hsig, hc]
    · cases hk : env.PubKey w r.author with
      | none => simp [verifyRecordLocally, hlen, hk, hsig]
      | some k =>
        cases hc : env.CheckRecordSig r (some k) <;>
          simp [verifyRecordLocally, hlen, hk, hsig, hc]

/-! ## Population of the result of `GetPublicKey` -/

/-- C7, counterexample: `"P"` is not cached, the peer answers with its own key
`1`, and the peerstore refuses the store.  `GetPublicKey` returns the key `1`
together with the store's error. -/
theorem GetPublicKey_key_with_error :
    (GetPublicKey (testNode (answerKey 1) (.ok [1]) true) [] (.ambient 0) "P").ret
      = (some ⟨1⟩, some (.foreign 7)) := by
  decide

/-- C7, amended: `GetPublicKey` returns a key with a `nil` error, or a `nil`
key with a non-`nil` error and no store call made, or the resolved key together
with a non-`nil` error; the last happens only when the execution ends with the
call `AddPubKey(p, k)` and that call returned the error.  A `nil` key with a
`nil` error is never returned. -/
theorem GetPublicKey_result_population (env : Env W) (w : W) (ctx : Context) (p : PeerID) :
    (∃ k, (GetPublicKey env w ctx p).ret = (some k, none)) ∨
    (∃ e, (GetPublicKey env w ctx p).ret = (none, some e) ∧
      storeCalls (GetPublicKey env w ctx p).trace = []) ∨
    (∃ k e w0 before, (GetPublicKey env w ctx p).ret = (some k, some e) ∧
      (GetPublicKey env w ctx p).trace = before ++ [.AddPubKey p k] ∧
      env.AddPubKey w0 p k = (some e, (GetPublicKey env w ctx p).world)) := by
  rcases GetPublicKey_shapes env w ctx p with
    ⟨k, -, hs⟩ | ⟨-, k, -, hs⟩ | ⟨-, e, err, -, -, hs⟩ | ⟨-, e, val, k, -, -, -, hs⟩
  · exact Or.inl ⟨k, by rw [hs]⟩
  · rcases ha : env.AddPubKey (getPublicKeyFromNode env w ctx p).world p k with ⟨err, w2⟩
    rw [ha] at hs
    cases err with
    | none => exact Or.inl ⟨k, by rw [hs]⟩
    | some e =>
      refine Or.inr (Or.inr ⟨k, e, (getPublicKeyFromNode env w ctx p).world,
        [.PubKey p, .PubKey p, .getValueSingle ctx p (env.KeyForPublicKey p)], ?_, ?_, ?_⟩)
      · rw [hs]
      · rw [hs]
        rfl
      · rw [hs, ha]
  · exact Or.inr (Or.inl ⟨err, by rw [hs], by rw [hs]; simp [storeCalls, Event.isStore]⟩)
  · rcases ha : env.AddPubKey (env.GetValue (getPublicKeyFromNode env w ctx p).world
      (WithDeadlineFraction ctx 3 10) (env.KeyForPublicKey p)).2 p k with ⟨err, w2⟩
    rw [ha] at hs
    cases err with
    | none => exact Or.inl ⟨k, by rw [hs]⟩
    | some e =>
      refine Or.inr (Or.inr ⟨k, e, (env.GetValue (getPublicKeyFromNode env w ctx p).world
        (WithDeadlineFraction ctx 3 10) (env.KeyForPublicKey p)).2,
        [.PubKey p, .PubKey p, .getValueSingle ctx p (env.KeyForPublicKey p),
         .GetValue (WithDeadlineFraction ctx 3 10) (env.KeyForPublicKey p)], ?_, ?_, ?_⟩)
      · rw [hs]
      · rw [hs]
        rfl
      · rw [hs, ha]

/-! ## Cache short-circuit and unsigned records -/

/-- C8: when the peerstore holds a key `k` for `p`, `GetPublicKey(ctx, p)`
returns `(k, nil)`, its only collaborator call is the lookup `PubKey(p)` (no
`getValueSingle`, no `GetValue`, no store) and the world is unchanged; and
`verifyRecordLocally` on a signed record authored by `p` calls the signature
checker once, on that record and exactly the key `k`. -/
theorem cache_short_circuit (env : Env W) (w : W) (ctx : Context) (p : PeerID) (k : PubKey)
    (hk : env.PubKey w p = some k) :
    GetPublicKey env w ctx p = ⟨(some k, none), w, [.PubKey p]⟩ ∧
    (∀ e ∈ (GetPublicKey env w ctx p).trace, e.isNetwork = false ∧ e.isStore = false) ∧
    (∀ r : Record, r.signature ≠ [] → r.author = p →
      (verifyRecordLocally env w r).trace.filter Event.isSigCheck
        = [.CheckRecordSig r (some k)]) := by
  have hget : GetPublicKey env w ctx p = ⟨(some k, none), w, [.PubKey p]⟩ := by
    simp [GetPublicKey, hk]
  refine ⟨hget, ?_, ?_⟩
  · rw [hget]
    simp [Event.isNetwork, Event.isStore]
  · intro r hsig hauthor
    have hlen : r.signature.length > 0 := List.length_pos.mpr hsig
    subst hauthor
    cases hc : env.CheckRecordSig r (some k) <;>
      simp [verifyRecordLocally, hlen, hk, hc, Event.isSigCheck]

/-- Witness for C8: the peerstore holds key `1` for `"P"`. -/
theorem cache_short_circuit_witness :
    GetPublicKey (testNode (answerKey 2) (.ok [2]) false) [("P", ⟨1⟩)] (.ambient 0) "P"
      = ⟨(some ⟨1⟩, none), [("P", ⟨1⟩)], [.PubKey "P"]⟩ ∧
    (verifyRecordLocally (testNode (answerKey 2) (.ok [2]) false) [("P", ⟨1⟩)]
        signedByP).trace.filter Event.isSigCheck
      = [.CheckRecordSig signedByP (some ⟨1⟩)] :=
  have h := cache_short_circuit (testNode (answerKey 2) (.ok [2]) false) [("P", ⟨1⟩)]
    (.ambient 0) "P" ⟨1⟩ rfl
  ⟨h.1, h.2.2 signedByP (by decide) rfl⟩

/-- C9: for a record with an empty signature, `verifyRecordLocally` and
`verifyRecordOnline` both return the result of `Validator.VerifyRecord(r)`;
that validator call is the only collaborator call made (no peerstore lookup, no
network call, no signature check) and the world is unchanged, whatever the
peerstore and the network would answer for the author. -/
theorem unsigned_record_validator_only (env : Env W) (w : W) (ctx : Context) (r : Record)
    (hsig : r.signature = []) :
    verifyRecordLocally env w r = ⟨env.VerifyRecord r, w, [.VerifyRecord r]⟩ ∧
    verifyRecordOnline env w ctx r = ⟨env.VerifyRecord r, w, [.VerifyRecord r]⟩ := by
  simp [verifyRecordLocally, verifyRecordOnline, hsig]

/-- Witness for C9: the unsigned record of `"P"`, whose key is neither cached
nor obtainable from the network, passes in both modes. -/
theorem unsigned_record_validator_only_witness :
    (verifyRecordLocally (testNode (.error (.foreign 9)) (.error (.foreign 8)) false) []
        unsignedByP).ret = none ∧
    (verifyRecordOnline (testNode (.error (.foreign 9)) (.error (.foreign 8)) false) []
        (.ambient 0) unsignedByP).ret = none :=
  have h := unsigned_record_validator_only
    (testNode (.error (.foreign 9)) (.error (.foreign 8)) false) [] (.ambient 0) unsignedByP rfl
  ⟨by rw [h.1]; rfl, by rw [h.2]; rfl⟩

/-! ## Cache-write discipline -/

/-- C10, counterexample: `"P"` is not cached, the peer answers with its own key
`1`, and the peerstore refuses the store.  `GetPublicKey` returns a non-`nil`
error and has made one store call. -/
theorem GetPublicKey_error_after_store_call :
    (GetPublicKey (testNode (answerKey 1) (.ok [1]) true) [] (.ambient 0) "P").ret.2
      = some (.foreign 7) ∧
    storeCalls (GetPublicKey (testNode (answerKey 1) (.ok [1]) true) [] (.ambient 0) "P").trace
      = [.AddPubKey "P" ⟨1⟩] := by
  decide

/-- C10, amended: every execution of `GetPublicKey` makes at most one store
call; an execution that returns a non-`nil` error has made either no store call
(no tier produced a key), or exactly one, the last call of the execution, and
the error returned is the error that store call returned. -/
theorem GetPublicKey_store_discipline (env : Env W) (w : W) (ctx : Context) (p : PeerID) :
    (storeCalls (GetPublicKey env w ctx p).trace).length ≤ 1 ∧
    (∀ e, (GetPublicKey env w ctx p).ret.2 = some e →
      ((GetPublicKey env w ctx p).ret.1 = none ∧
        storeCalls (GetPublicKey env w ctx p).trace = []) ∨
      (∃ k w0 before, (GetPublicKey env w ctx p).ret.1 = some k ∧
        storeCalls (GetPublicKey env w ctx p).trace = [.AddPubKey p k] ∧
        (GetPublicKey env w ctx p).trace = before ++ [.AddPubKey p k] ∧
        env.AddPubKey w0 p k = (some e, (GetPublicKey env w ctx p).world))) := by
  rcases GetPublicKey_shapes env w ctx p with
    ⟨k, -, hs⟩ | ⟨-, k, -, hs⟩ | ⟨-, e, err, -, -, hs⟩ | ⟨-, e, val, k, -, -, -, hs⟩
  · rw [hs]
    simp [storeCalls, Event.isStore]
  · rw [hs]
    refine ⟨by simp [storeCalls, Event.isStore], ?_⟩
    intro e he
    refine Or.inr ⟨k, (getPublicKeyFromNode env w ctx p).world,
      [.PubKey p, .PubKey p, .getValueSingle ctx p (env.KeyForPublicKey p)], rfl,
      by simp [storeCalls, Event.isStore], rfl, ?_⟩
    exact Prod.ext he rfl
  · rw [hs]
    simp [storeCalls, Event.isStore]
  · rw [hs]
    refine ⟨by simp [storeCalls, Event.isStore], ?_⟩
    intro e he
    refine Or.inr ⟨k, (env.GetValue (getPublicKeyFromNode env w ctx p).world
      (WithDeadlineFraction ctx 3 10) (env.KeyForPublicKey p)).2,
      [.PubKey p, .PubKey p, .getValueSingle ctx p (env.KeyForPublicKey p),
       .GetValue (WithDeadlineFraction ctx 3 10) (env.KeyForPublicKey p)], rfl,
      by simp [storeCalls, Event.isStore], rfl, ?_⟩
    exact Prod.ext he rfl

/-! ## Failure of every tier -/

/-- On a cache miss on which the direct-peer tier fails and the DHT tier fails
with `e` (the lookup fails, or its bytes do not unmarshal), `GetPublicKey`
returns `(nil, e)` after the two lookups, the single-peer request and the DHT
lookup, and makes no store call. -/
theorem GetPublicKey_dht_failure (env : Env W) (w : W) (ctx : Context) (p : PeerID)
    (e0 e : Err) (hmiss : env.PubKey w p = none)
    (hnode : (getPublicKeyFromNode env w ctx p).ret = .error e0)
    (hdht : (env.GetValue (getPublicKeyFromNode env w ctx p).world
          (WithDeadlineFraction ctx 3 10) (env.KeyForPublicKey p)).1 = .error e ∨
      ∃ val, (env.GetValue (getPublicKeyFromNode env w ctx p).world
          (WithDeadlineFraction ctx 3 10) (env.KeyForPublicKey p)).1 = .ok val ∧
        env.UnmarshalPublicKey val = .error e) :
    GetPublicKey env w ctx p =
      ⟨(none, some e),
       (env.GetValue (getPublicKeyFromNode env w ctx p).world (WithDeadlineFraction ctx 3 10)
          (env.KeyForPublicKey p)).2,
       [.PubKey p, .PubKey p, .getValueSingle ctx p (env.KeyForPublicKey p),
        .GetValue (WithDeadlineFraction ctx 3 10) (env.KeyForPublicKey p)]⟩ := by
  rcases GetPublicKey_shapes env w ctx p with
    ⟨k, hk, -⟩ | ⟨-, k, hn, -⟩ | ⟨-, e1, err, -, hd, hs⟩ | ⟨-, e1, val, k, -, hg, hu, -⟩
  · rw [hmiss] at hk
    cases hk
  · rw [hnode] at hn
    cases hn
  · have hee : err = e := by
      rcases hd with hd | ⟨val, hv, hu⟩
      · rcases hdht with h | ⟨val2, h, -⟩
        · rw [hd] at h
          exact Except.error.inj h
        · rw [hd] at h
          cases h
      · rcases hdht with h | ⟨val2, h, hu2⟩
        · rw [hv] at h
          cases h
        · rw [hv] at h
          cases h
          rw [hu] at hu2
          exact Except.error.inj hu2
    rw [hs, hee]
  · rcases hdht with h | ⟨val2, h, hu2⟩
    · rw [hg] at h
      cases h
    · rw [hg] at h
      cases h
      rw [hu] at hu2
      cases hu2

/-- C11: when the key of `p` is not cached, the direct-peer tier fails (with
any error `e0`) and the DHT tier fails with `e` (either `GetValue` returns the
error `e`, or `GetValue` succeeds and `UnmarshalPublicKey` returns the error
`e`), `GetPublicKey` returns a `nil` key and exactly the error `e`. -/
theorem GetPublicKey_last_tier_error (env : Env W) (w : W) (ctx : Context) (p : PeerID)
    (e0 e : Err) (hmiss : env.PubKey w p = none)
    (hnode : (getPublicKeyFromNode env w ctx p).ret = .error e0)
    (hdht : (env.GetValue (getPublicKeyFromNode env w ctx p).world
          (WithDeadlineFraction ctx 3 10) (env.KeyForPublicKey p)).1 = .error e ∨
      ∃ val, (env.GetValue (getPublicKeyFromNode env w ctx p).world
          (WithDeadlineFraction ctx 3 10) (env.KeyForPublicKey p)).1 = .ok val ∧
        env.UnmarshalPublicKey val = .error e) :
    (GetPublicKey env w ctx p).ret = (none, some e) := by
  rw [GetPublicKey_dht_failure env w ctx p e0 e hmiss hnode hdht]

/-- Witness for C11: the peer answers with a mismatched key and the DHT lookup
fails with error `8`; `GetPublicKey` returns `(nil, 8)`. -/
theorem GetPublicKey_last_tier_error_witness :
    (getPublicKeyFromNode (testNode (answerKey 2) (.error (.foreign 8)) false) []
      (.ambient 0) "P").ret = .error (.keyMismatch "P") ∧
    (GetPublicKey (testNode (answerKey 2) (.error (.foreign 8)) false) []
      (.ambient 0) "P").ret = (none, some (.foreign 8)) :=
  ⟨rfl, GetPublicKey_last_tier_error (testNode (answerKey 2) (.error (.foreign 8)) false) []
    (.ambient 0) "P" (.keyMismatch "P") (.foreign 8) rfl rfl (Or.inl rfl)⟩

/-- C17, counterexample: `"P"` is not cached and the DHT lookup fails with
error `8`.  Whether the peer answers with a key deriving to another ID
(mismatch) or with no record at all (not found), `GetPublicKey` returns the same
pair `(nil, 8)`. -/
theorem mismatch_and_not_found_same_error :
    (getPublicKeyFromNode (testNode (answerKey 2) (.error (.foreign 8)) false) []
      (.ambient 0) "P").ret = .error (.keyMismatch "P") ∧
    (getPublicKeyFromNode (testNode (.ok ⟨none⟩) (.error (.foreign 8)) false) []
      (.ambient 0) "P").ret = .error (.nodeNotResponding "P") ∧
    (GetPublicKey (testNode (answerKey 2) (.error (.foreign 8)) false) []
      (.ambient 0) "P").ret = (none, some (.foreign 8)) ∧
    (GetPublicKey (testNode (.ok ⟨none⟩) (.error (.foreign 8)) false) []
      (.ambient 0) "P").ret = (none, some (.foreign 8)) := by
  refine ⟨rfl, rfl, by decide, by decide⟩

/-- C17, amended: an identity mismatch is a distinct error value at the
direct-peer tier only (`public key does not match id` against `Node not
responding with its public key`).  `GetPublicKey` drops the error of the
direct-peer tier: of two executions for an uncached `p`, one whose direct-peer
tier failed with the mismatch error and one whose direct-peer tier failed with
the not-found error, both with a DHT tier failing with `e`, each returns
`(nil, e)`, so the two results are equal. -/
theorem GetPublicKey_drops_tier_error (env1 env2 : Env W) (w1 w2 : W) (ctx : Context)
    (p : PeerID) (e : Err)
    (hmiss1 : env1.PubKey w1 p = none) (hmiss2 : env2.PubKey w2 p = none)
    (hnode1 : (getPublicKeyFromNode env1 w1 ctx p).ret = .error (.keyMismatch p))
    (hnode2 : (getPublicKeyFromNode env2 w2 ctx p).ret = .error (.nodeNotResponding p))
    (hdht1 : (env1.GetValue (getPublicKeyFromNode env1 w1 ctx p).world
          (WithDeadlineFraction ctx 3 10) (env1.KeyForPublicKey p)).1 = .error e ∨
      ∃ val, (env1.GetValue (getPublicKeyFromNode env1 w1 ctx p).world
          (WithDeadlineFraction ctx 3 10) (env1.KeyForPublicKey p)).1 = .ok val ∧
        env1.UnmarshalPublicKey val = .error e)
    (hdht2 : (env2.GetValue (getPublicKeyFromNode env2 w2 ctx p).world
          (WithDeadlineFraction ctx 3 10) (env2.KeyForPublicKey p)).1 = .error e ∨
      ∃ val, (env2.GetValue (getPublicKeyFromNode env2 w2 ctx p).world
          (WithDeadlineFraction ctx 3 10) (env2.KeyForPublicKey p)).1 = .ok val ∧
        env2.UnmarshalPublicKey val = .error e) :
    Err.keyMismatch p ≠ Err.nodeNotResponding p ∧
    (GetPublicKey env1 w1 ctx p).ret = (none, some e) ∧
    (GetPublicKey env2 w2 ctx p).ret = (none, some e) ∧
    (GetPublicKey env1 w1 ctx p).ret = (GetPublicKey env2 w2 ctx p).ret := by
  have h1 := GetPublicKey_dht_failure env1 w1 ctx p _ e hmiss1 hnode1 hdht1
  have h2 := GetPublicKey_dht_failure env2 w2 ctx p _ e hmiss2 hnode2 hdht2
  refine ⟨by simp, by rw [h1], by rw [h2], by rw [h1, h2]⟩

/-- Witness for C17 (amended): the mismatching peer and the peer without a
record, both with a DHT lookup failing with error `8`. -/
theorem GetPublicKey_drops_tier_error_witness :
    (GetPublicKey (testNode (answerKey 2) (.error (.foreign 8)) false) []
      (.ambient 0) "P").ret =
    (GetPublicKey (testNode (.ok ⟨none⟩) (.error (.foreign 8)) false) []
      (.ambient 0) "P").ret :=
  (GetPublicKey_drops_tier_error (testNode (answerKey 2) (.error (.foreign 8)) false)
    (testNode (.ok ⟨none⟩) (.error (.foreign 8)) false) [] [] (.ambient 0) "P" (.foreign 8)
    rfl rfl rfl rfl (Or.inl rfl) (Or.inl rfl)).2.2.2

/-! ## Order of the checks in a verification -/

/-- The trace of `GetPublicKey` holds neither a signature check nor a validator
call. -/
theorem GetPublicKey_trace_resolution_only (env : Env W) (w : W) (ctx : Context)
    (p : PeerID) :
    ∀ ev ∈ (GetPublicKey env w ctx p).trace, ev.isSigCheck = false ∧ ev.isValidator = false := by
  rcases GetPublicKey_shapes env w ctx p with
    ⟨k, -, hs⟩ | ⟨-, k, -, hs⟩ | ⟨-, e, err, -, -, hs⟩ | ⟨-, e, val, k, -, -, -, hs⟩
  all_goals
    rw [hs]
    simp [Event.isSigCheck, Event.isValidator]

/-- C12: for a signed record, `verifyRecordOnline` returns the error of the
first failing step, in the order resolution, signature, structure.  If
`GetPublicKey` returns an error, that very error is returned and nothing runs
after the resolution; if the resolution succeeds and `CheckRecordSig` fails, its
error is returned and the validator is not called; otherwise the result is the
result of `Validator.VerifyRecord`.  The resolution itself contains no
signature check and no validator call. -/
theorem verifyRecordOnline_first_failure (env : Env W) (w : W) (ctx : Context) (r : Record)
    (hsig : r.signature ≠ []) :
    (∀ ev ∈ (GetPublicKey env w ctx r.author).trace,
      ev.isSigCheck = false ∧ ev.isValidator = false) ∧
    (∀ e, (GetPublicKey env w ctx r.author).ret.2 = some e →
      verifyRecordOnline env w ctx r =
        ⟨some e, (GetPublicKey env w ctx r.author).world,
          (GetPublicKey env w ctx r.author).trace⟩) ∧
    (∀ pk e, (GetPublicKey env w ctx r.author).ret = (pk, none) →
      env.CheckRecordSig r pk = some e →
      verifyRecordOnline env w ctx r =
        ⟨some e, (GetPublicKey env w ctx r.author).world,
          (GetPublicKey env w ctx r.author).trace ++ [.CheckRecordSig r pk]⟩) ∧
    (∀ pk, (GetPublicKey env w ctx r.author).ret = (pk, none) →
      env.CheckRecordSig r pk = none →
      verifyRecordOnline env w ctx r =
        ⟨env.VerifyRecord r, (GetPublicKey env w ctx r.author).world,
          (GetPublicKey env w ctx r.author).trace ++
            [.CheckRecordSig r pk, .VerifyRecord r]⟩) := by
  have hlen : r.signature.length > 0 := List.length_pos.mpr hsig
  refine ⟨GetPublicKey_trace_resolution_only env w ctx r.author, ?_, ?_, ?_⟩
  · intro e he
    rcases hres : (GetPublicKey env w ctx r.author).ret with ⟨pk, err⟩
    rw [hres] at he
    simp only at he
    subst he
    simp [verifyRecordOnline, hlen, hres]
  · intro pk e hres hc
    simp [verifyRecordOnline, hlen, hres, hc]
  · intro pk hres hc
    simp [verifyRecordOnline, hlen, hres, hc]

/-- Witness for C12: the signed record of `"P"`, whose key cannot be resolved
(peer unreachable, DHT lookup failing with error `8`): the resolution error is
returned. -/
theorem verifyRecordOnline_first_failure_witness :
    (verifyRecordOnline (testNode (.error (.foreign 9)) (.error (.foreign 8)) false) []
      (.ambient 0) signedByP).ret = some (.foreign 8) := by
  have h := (verifyRecordOnline_first_failure
    (testNode (.error (.foreign 9)) (.error (.foreign 8)) false) [] (.ambient 0) signedByP
    (by decide)).2.1 (.foreign 8) (by decide)
  rw [h]

/-- C13, counterexample: for the signed record of `"P"`, the validator is not
called when the key is not cached (offline), when the key cannot be resolved
(online), or when the signature check fails (both modes, the cached key being
`2`). -/
theorem validator_skipped_after_failed_signature_step :
    Event.VerifyRecord signedByP ∉
      (verifyRecordLocally (testNode (.error (.foreign 9)) (.error (.foreign 8)) false) []
        signedByP).trace ∧
    Event.VerifyRecord signedByP ∉
      (verifyRecordOnline (testNode (.error (.foreign 9)) (.error (.foreign 8)) false) []
        (.ambient 0) signedByP).trace ∧
    Event.VerifyRecord signedByP ∉
      (verifyRecordLocally (testNode (.error (.foreign 9)) (.error (.foreign 8)) false)
        [("P", ⟨2⟩)] signedByP).trace ∧
    Event.VerifyRecord signedByP ∉
      (verifyRecordOnline (testNode (.error (.foreign 9)) (.error (.foreign 8)) false)
        [("P", ⟨2⟩)] (.ambient 0) signedByP).trace := by
  decide

/-- C13, amended: in both modes the validator is invoked on the record exactly
when the record is unsigned, or it is signed, the author's key is resolved (by
the local lookup, resp. by `GetPublicKey` returning a key and a `nil` error) and
`CheckRecordSig` succeeds.  When the key is unresolved or the signature check
fails, the function returns without calling the validator. -/
theorem validator_invoked_iff (env : Env W) (w : W) (ctx : Context) (r : Record) :
    (Event.VerifyRecord r ∈ (verifyRecordLocally env w r).trace ↔
      (r.signature = [] ∨ ∃ k, env.PubKey w r.author = some k ∧
        env.CheckRecordSig r (some k) = none)) ∧
    (Event.VerifyRecord r ∈ (verifyRecordOnline env w ctx r).trace ↔
      (r.signature = [] ∨ ∃ k, (GetPublicKey env w ctx r.author).ret = (some k, none) ∧
        env.CheckRecordSig r (some k) = none)) := by
  by_cases hsig : r.signature = []
  · simp [verifyRecordOnline, verifyRecordLocally, hsig]
  · have hlen : r.signature.length > 0 := List.length_pos.mpr hsig
    constructor
    · cases hk : env.PubKey w r.author with
      | none => simp [verifyRecordLocally, hlen, hk, hsig]
      | some k =>
        cases hc : env.CheckRecordSig r (some k) <;>
          simp [verifyRecordLocally, hlen, hk, hsig, hc]
    · have hno : Event.VerifyRecord r ∉ (GetPublicKey env w ctx r.author).trace := by
        intro hmem
        have := (GetPublicKey_trace_resolution_only env w ctx r.author _ hmem).2
        simp [Event.isValidator] at this
      rcases hres : (GetPublicKey env w ctx r.author).ret with ⟨pk, err⟩
      cases err with
      | some e => simp [verifyRecordOnline, hlen, hres, hsig, hno]
      | none =>
        obtain ⟨k, rfl⟩ := GetPublicKey_key_of_nil_error env w ctx r.author pk hres
        cases hc : env.CheckRecordSig r (some k) <;>
          simp [verifyRecordOnline, hlen, hres, hsig, hc, hno]

/-! ## The online happy path, idempotence, and agreement of the two modes -/

/-- C14: for a signed record whose author `P` is not cached, if the peer
answers the single-peer request with a record whose value unmarshals to `K`
with `IDFromPublicKey(K) = P`, the store of `K` succeeds (over a peerstore in
which a successful store is seen by the next lookup), `CheckRecordSig(r, K)`
succeeds and the validator succeeds, then `verifyRecordOnline` returns `nil`,
the key cache afterwards maps `P` to `K`, and the DHT lookup `GetValue` was not
invoked. -/
theorem verifyRecordOnline_direct_peer_path (env : Env W) (w w1 w2 : W) (ctx : Context)
    (r record : Record) (K : PubKey)
    (hlaw : ∀ w0 q pk w3, env.AddPubKey w0 q pk = (none, w3) → env.PubKey w3 q = some pk)
    (hsig : r.signature ≠ [])
    (hmiss : env.PubKey w r.author = none)
    (hsingle : env.getValueSingle w ctx r.author (env.KeyForPublicKey r.author)
      = (.ok ⟨some record⟩, w1))
    (hK : env.UnmarshalPublicKey record.value = .ok K)
    (hid : env.IDFromPublicKey K = .ok r.author)
    (hstore : env.AddPubKey w1 r.author K = (none, w2))
    (hcheck : env.CheckRecordSig r (some K) = none)
    (hvalid : env.VerifyRecord r = none) :
    (verifyRecordOnline env w ctx r).ret = none ∧
    (verifyRecordOnline env w ctx r).world = w2 ∧
    env.PubKey (verifyRecordOnline env w ctx r).world r.author = some K ∧
    (verifyRecordOnline env w ctx r).trace =
      [.PubKey r.author, .PubKey r.author,
       .getValueSingle ctx r.author (env.KeyForPublicKey r.author),
       .AddPubKey r.author K, .CheckRecordSig r (some K), .VerifyRecord r] ∧
    (∀ c key, Event.GetValue c key ∉ (verifyRecordOnline env w ctx r).trace) := by
  have hlen : r.signature.length > 0 := List.length_pos.mpr hsig
  have hnode : getPublicKeyFromNode env w ctx r.author =
      ⟨.ok K, w1, [.PubKey r.author,
        .getValueSingle ctx r.author (env.KeyForPublicKey r.author)]⟩ := by
    simp [getPublicKeyFromNode, hmiss, hsingle, hK, hid]
  have hget : GetPublicKey env w ctx r.author =
      ⟨(some K, none), w2, [.PubKey r.author, .PubKey r.author,
        .getValueSingle ctx r.author (env.KeyForPublicKey r.author),
        .AddPubKey r.author K]⟩ := by
    simp [GetPublicKey, hmiss, hnode, hstore]
  have hrun : verifyRecordOnline env w ctx r =
      ⟨none, w2, [.PubKey r.author, .PubKey r.author,
        .getValueSingle ctx r.author (env.KeyForPublicKey r.author),
        .AddPubKey r.author K, .CheckRecordSig r (some K), .VerifyRecord r]⟩ := by
    simp [verifyRecordOnline, hlen, hget, hcheck, hvalid]
  rw [hrun]
  refine ⟨rfl, rfl, hlaw w1 r.author K w2 hstore, rfl, ?_⟩
  intro c key
  simp

/-- The peerstore of `testNode` shows a successful store to the next lookup. -/
theorem testNode_store_visible (single : Except Err Message) (dht : Except Err Bytes)
    (storeFails : Bool) (w0 : KeyStore) (q : PeerID) (pk : PubKey) (w3 : KeyStore)
    (h : (testNode single dht storeFails).AddPubKey w0 q pk = (none, w3)) :
    (testNode single dht storeFails).PubKey w3 q = some pk := by
  cases storeFails with
  | true => simp [testNode] at h
  | false =>
    simp only [testNode, Bool.false_eq_true, if_false, Prod.mk.injEq, true_and] at h
    subst h
    simp [testNode, List.lookup]

/-- Witness for C14: the signed record of `"P"`, an empty peerstore, and a peer
answering with its own key `1`. -/
theorem verifyRecordOnline_direct_peer_path_witness :
    (verifyRecordOnline (testNode (answerKey 1) (.error (.foreign 8)) false) []
      (.ambient 0) signedByP).ret = none ∧
    (verifyRecordOnline (testNode (answerKey 1) (.error (.foreign 8)) false) []
      (.ambient 0) signedByP).world = [("P", ⟨1⟩)] :=
  have h := verifyRecordOnline_direct_peer_path
    (testNode (answerKey 1) (.error (.foreign 8)) false) [] [] [("P", ⟨1⟩)] (.ambient 0)
    signedByP ⟨"/pk/P", [1], "", []⟩ ⟨1⟩
    (testNode_store_visible (answerKey 1) (.error (.foreign 8)) false)
    (by decide) rfl rfl rfl rfl rfl rfl rfl
  ⟨h.1, h.2.1⟩

/-- A cache hit: the cached key is returned after the single lookup. -/
theorem GetPublicKey_hit (env : Env W) (w : W) (ctx : Context) (p : PeerID) (k : PubKey)
    (hk : env.PubKey w p = some k) :
    GetPublicKey env w ctx p = ⟨(some k, none), w, [.PubKey p]⟩ := by
  simp [GetPublicKey, hk]

/-- C18: over a peerstore in which a successful `AddPubKey(p, k)` is seen by
the lookups that follow, if `GetPublicKey(ctx, p)` returned `(k, nil)`, then a
subsequent `GetPublicKey(ctx2, p)`, run in the world the first call left or in
any world in which the lookup of `p` answers the same, returns `(k, nil)` again;
its only collaborator call is the lookup `PubKey(p)` (no `getValueSingle`, no
`GetValue`, no store) and it leaves the world unchanged. -/
theorem GetPublicKey_idempotent (env : Env W) (w : W) (ctx ctx2 : Context) (p : PeerID)
    (k : PubKey)
    (hlaw : ∀ w0 q pk w3, env.AddPubKey w0 q pk = (none, w3) → env.PubKey w3 q = some pk)
    (hfirst : (GetPublicKey env w ctx p).ret = (some k, none)) :
    GetPublicKey env (GetPublicKey env w ctx p).world ctx2 p =
      ⟨(some k, none), (GetPublicKey env w ctx p).world, [.PubKey p]⟩ ∧
    (∀ w2, env.PubKey w2 p = env.PubKey (GetPublicKey env w ctx p).world p →
      GetPublicKey env w2 ctx2 p = ⟨(some k, none), w2, [.PubKey p]⟩) := by
  have hcached : env.PubKey (GetPublicKey env w ctx p).world p = some k := by
    rcases GetPublicKey_shapes env w ctx p with
      ⟨k1, hk, hs⟩ | ⟨-, k1, -, hs⟩ | ⟨-, e, err, -, -, hs⟩ | ⟨-, e, val, k1, -, -, -, hs⟩
    · rw [hs] at hfirst ⊢
      simp only [Prod.mk.injEq, Option.some.injEq, and_true] at hfirst
      rw [hk, hfirst]
    · rw [hs] at hfirst ⊢
      simp only [Prod.mk.injEq, Option.some.injEq] at hfirst
      rw [← hfirst.1]
      exact hlaw _ p k1 _ (Prod.ext hfirst.2 rfl)
    · rw [hs] at hfirst
      simp at hfirst
    · rw [hs] at hfirst ⊢
      simp only [Prod.mk.injEq, Option.some.injEq] at hfirst
      rw [← hfirst.1]
      exact hlaw _ p k1 _ (Prod.ext hfirst.2 rfl)
  refine ⟨GetPublicKey_hit env _ ctx2 p k hcached, ?_⟩
  intro w2 hw2
  rw [hcached] at hw2
  exact GetPublicKey_hit env w2 ctx2 p k hw2

/-- Witness for C18: the first call resolves `"P"` through the direct-peer tier
and stores key `1`; the second call, under another context, is a cache hit. -/
theorem GetPublicKey_idempotent_witness :
    (GetPublicKey (testNode (answerKey 1) (.ok [1]) false) [] (.ambient 0) "P").ret
      = (some ⟨1⟩, none) ∧
    GetPublicKey (testNode (answerKey 1) (.ok [1]) false)
      (GetPublicKey (testNode (answerKey 1) (.ok [1]) false) [] (.ambient 0) "P").world
      (.ambient 1) "P" =
      ⟨(some ⟨1⟩, none),
       (GetPublicKey (testNode (answerKey 1) (.ok [1]) false) [] (.ambient 0) "P").world,
       [.PubKey "P"]⟩ :=
  ⟨by decide,
   (GetPublicKey_idempotent (testNode (answerKey 1) (.ok [1]) false) [] (.ambient 0)
      (.ambient 1) "P" ⟨1⟩ (testNode_store_visible (answerKey 1) (.ok [1]) false)
      (by decide)).1⟩

/-- C19: for a record that is unsigned, or whose author's key is present in the
peerstore, `verifyRecordOnline` and `verifyRecordLocally` are the same
execution: same result, same collaborator calls, same final world; that
execution makes no network call and no store call and leaves the world
unchanged. -/
theorem verifyRecordOnline_eq_locally (env : Env W) (w : W) (ctx : Context) (r : Record)
    (h : r.signature = [] ∨ ∃ k, env.PubKey w r.author = some k) :
    verifyRecordOnline env w ctx r = verifyRecordLocally env w r ∧
    (verifyRecordOnline env w ctx r).world = w ∧
    (∀ ev ∈ (verifyRecordOnline env w ctx r).trace,
      ev.isNetwork = false ∧ ev.isStore = false) := by
  by_cases hsig : r.signature = []
  · simp [verifyRecordOnline, verifyRecordLocally, hsig, Event.isNetwork, Event.isStore]
  · have hlen : r.signature.length > 0 := List.length_pos.mpr hsig
    rcases h with h | ⟨k, hk⟩
    · exact absurd h hsig
    · have hget : GetPublicKey env w ctx r.author = ⟨(some k, none), w, [.PubKey r.author]⟩ := by
        simp [GetPublicKey, hk]
      cases hc : env.CheckRecordSig r (some k) <;>
        simp [verifyRecordOnline, verifyRecordLocally, hlen, hk, hget, hc, Event.isNetwork,
          Event.isStore]

/-- Witness for C19: the signed record of `"P"` with key `1` cached; the network
of the node answers nothing. -/
theorem verifyRecordOnline_eq_locally_witness :
    verifyRecordOnline (testNode (.error (.foreign 9)) (.error (.foreign 8)) false)
      [("P", ⟨1⟩)] (.ambient 0) signedByP =
    verifyRecordLocally (testNode (.error (.foreign 9)) (.error (.foreign 8)) false)
      [("P", ⟨1⟩)] signedByP :=
  (verifyRecordOnline_eq_locally (testNode (.error (.foreign 9)) (.error (.foreign 8)) false)
    [("P", ⟨1⟩)] (.ambient 0) signedByP (Or.inr ⟨⟨1⟩, rfl⟩)).1

end Dht

namespace Blockstore

variable {B C : Type}

/-! ## Validation of the options -/

/-- Options that fail the validation are answered with a `nil` store, the
matching configuration error, and no constructor call. -/
theorem CachedBlockstore_invalid (env : Env B C) (ctx : C) (bs : Option B) (opts : CacheOpts) :
    ((opts.HasBloomFilterSize < 0 ∨ opts.HasBloomFilterHashes < 0 ∨
        opts.HasTwoQueueCacheSize < 0) →
      CachedBlockstore env ctx bs opts = ⟨none, some .optionsNegative, []⟩) ∧
    (¬ (opts.HasBloomFilterSize < 0 ∨ opts.HasBloomFilterHashes < 0 ∨
        opts.HasTwoQueueCacheSize < 0) →
      (opts.HasBloomFilterSize ≠ 0 ∧ opts.HasBloomFilterHashes = 0) →
      CachedBlockstore env ctx bs opts = ⟨none, some .hashCountZero, []⟩) := by
  constructor
  · intro h
    simp only [CachedBlockstore, if_pos h]
  · intro h1 h2
    simp only [CachedBlockstore, if_neg h1, if_pos h2]

/-- Options that pass the validation lead to the two layering steps: the
two-queue layer when its size is positive, then the bloom layer when its size is
not zero, each built over the result of what precedes, the error returned
being that of the last constructor called. -/
theorem CachedBlockstore_valid (env : Env B C) (ctx : C) (bs : Option B) (opts : CacheOpts)
    (h1 : ¬ (opts.HasBloomFilterSize < 0 ∨ opts.HasBloomFilterHashes < 0 ∨
        opts.HasTwoQueueCacheSize < 0))
    (h2 : ¬ (opts.HasBloomFilterSize ≠ 0 ∧ opts.HasBloomFilterHashes = 0)) :
    (¬ opts.HasTwoQueueCacheSize > 0 → ¬ opts.HasBloomFilterSize ≠ 0 →
      CachedBlockstore env ctx bs opts = ⟨bs, none, []⟩) ∧
    (opts.HasTwoQueueCacheSize > 0 → ¬ opts.HasBloomFilterSize ≠ 0 →
      CachedBlockstore env ctx bs opts =
        ⟨(env.newTwoQueueCachedBS (env.CtxSubScope ctx "bs.cache") bs
            opts.HasTwoQueueCacheSize).1,
         (env.newTwoQueueCachedBS (env.CtxSubScope ctx "bs.cache") bs
            opts.HasTwoQueueCacheSize).2,
         [.newTwoQueueCachedBS (env.CtxSubScope ctx "bs.cache") bs
            opts.HasTwoQueueCacheSize]⟩) ∧
    (¬ opts.HasTwoQueueCacheSize > 0 → opts.HasBloomFilterSize ≠ 0 →
      CachedBlockstore env ctx bs opts =
        ⟨(env.bloomCached (env.CtxSubScope ctx "bs.cache") bs
            (wrapInt (opts.HasBloomFilterSize * 8)) opts.HasBloomFilterHashes).1,
         (env.bloomCached (env.CtxSubScope ctx "bs.cache") bs
            (wrapInt (opts.HasBloomFilterSize * 8)) opts.HasBloomFilterHashes).2,
         [.bloomCached (env.CtxSubScope ctx "bs.cache") bs
            (wrapInt (opts.HasBloomFilterSize * 8)) opts.HasBloomFilterHashes]⟩) ∧
    (opts.HasTwoQueueCacheSize > 0 → opts.HasBloomFilterSize ≠ 0 →
      CachedBlockstore env ctx bs opts =
        ⟨(env.bloomCached (env.CtxSubScope ctx "bs.cache")
            (env.newTwoQueueCachedBS (env.CtxSubScope ctx "bs.cache") bs
              opts.HasTwoQueueCacheSize).1
            (wrapInt (opts.HasBloomFilterSize * 8)) opts.HasBloomFilterHashes).1,
         (env.bloomCached (env.CtxSubScope ctx "bs.cache")
            (env.newTwoQueueCachedBS (env.CtxSubScope ctx "bs.cache") bs
              opts.HasTwoQueueCacheSize).1
            (wrapInt (opts.HasBloomFilterSize * 8)) opts.HasBloomFilterHashes).2,
         [.newTwoQueueCachedBS (env.CtxSubScope ctx "bs.cache") bs
            opts.HasTwoQueueCacheSize,
          .bloomCached (env.CtxSubScope ctx "bs.cache")
            (env.newTwoQueueCachedBS (env.CtxSubScope ctx "bs.cache") bs
              opts.HasTwoQueueCacheSize).1
            (wrapInt (opts.HasBloomFilterSize * 8)) opts.HasBloomFilterHashes]⟩) := by
  refine ⟨?_, ?_, ?_, ?_⟩ <;> intro h3 h4
  · simp only [CachedBlockstore, if_neg h1, if_neg h2, if_neg h3, if_neg h4]
  · simp only [CachedBlockstore, if_neg h1, if_neg h2, if_pos h3, if_neg h4]
  · simp only [CachedBlockstore, if_neg h1, if_neg h2, if_neg h3, if_pos h4,
      List.nil_append]
  · simp only [CachedBlockstore, if_neg h1, if_neg h2, if_pos h3, if_pos h4,
      List.singleton_append]

/-- C15: `CachedBlockstore` returns a `nil` store and a non-`nil` error without
calling either layer constructor if and only if some option is negative, or
`HasBloomFilterSize` is not zero while `HasBloomFilterHashes` is zero.  The
error is then the configuration error of the failed check, and options all
equal to zero pass the validation: the store given is returned as it is. -/
theorem CachedBlockstore_rejects_iff (env : Env B C) (ctx : C) (bs : Option B)
    (opts : CacheOpts) :
    (((CachedBlockstore env ctx bs opts).cbs = none ∧
        (CachedBlockstore env ctx bs opts).err ≠ none ∧
        (CachedBlockstore env ctx bs opts).calls = []) ↔
      (opts.HasBloomFilterSize < 0 ∨ opts.HasBloomFilterHashes < 0 ∨
        opts.HasTwoQueueCacheSize < 0 ∨
        (opts.HasBloomFilterSize ≠ 0 ∧ opts.HasBloomFilterHashes = 0))) ∧
    ((opts.HasBloomFilterSize < 0 ∨ opts.HasBloomFilterHashes < 0 ∨
        opts.HasTwoQueueCacheSize < 0 ∨
        (opts.HasBloomFilterSize ≠ 0 ∧ opts.HasBloomFilterHashes = 0)) →
      (CachedBlockstore env ctx bs opts).err = some .optionsNegative ∨
      (CachedBlockstore env ctx bs opts).err = some .hashCountZero) ∧
    CachedBlockstore env ctx bs ⟨0, 0, 0⟩ = ⟨bs, none, []⟩ := by
  refine ⟨?_, ?_, ?_⟩
  · by_cases h1 : opts.HasBloomFilterSize < 0 ∨ opts.HasBloomFilterHashes < 0 ∨
        opts.HasTwoQueueCacheSize < 0
    · rw [(CachedBlockstore_invalid env ctx bs opts).1 h1]
      constructor
      · intro _
        rcases h1 with h | h | h
        · exact Or.inl h
        · exact Or.inr (Or.inl h)
        · exact Or.inr (Or.inr (Or.inl h))
      · intro _
        simp
    · by_cases h2 : opts.HasBloomFilterSize ≠ 0 ∧ opts.HasBloomFilterHashes = 0
      · rw [(CachedBlockstore_invalid env ctx bs opts).2 h1 h2]
        constructor
        · intro _
          exact Or.inr (Or.inr (Or.inr h2))
        · intro _
          simp
      · have hv := CachedBlockstore_valid env ctx bs opts h1 h2
        constructor
        · intro hres
          exfalso
          by_cases h3 : opts.HasTwoQueueCacheSize > 0 <;>
            by_cases h4 : opts.HasBloomFilterSize ≠ 0
          · rw [hv.2.2.2 h3 h4] at hres
            simp at hres
          · rw [hv.2.1 h3 h4] at hres
            simp at hres
          · rw [hv.2.2.1 h3 h4] at hres
            simp at hres
          · rw [hv.1 h3 h4] at hres
            simp at hres
        · intro hinv
          exfalso
          rcases hinv with h | h | h | h
          · exact h1 (Or.inl h)
          · exact h1 (Or.inr (Or.inl h))
          · exact h1 (Or.inr (Or.inr h))
          · exact h2 h
  · intro hinv
    by_cases h1 : opts.HasBloomFilterSize < 0 ∨ opts.HasBloomFilterHashes < 0 ∨
        opts.HasTwoQueueCacheSize < 0
    · rw [(CachedBlockstore_invalid env ctx bs opts).1 h1]
      exact Or.inl rfl
    · have h2 : opts.HasBloomFilterSize ≠ 0 ∧ opts.HasBloomFilterHashes = 0 := by
        rcases hinv with h | h | h | h
        · exact absurd (Or.inl h) h1
        · exact absurd (Or.inr (Or.inl h)) h1
        · exact absurd (Or.inr (Or.inr h)) h1
        · exact h
      rw [(CachedBlockstore_invalid env ctx bs opts).2 h1 h2]
      exact Or.inr rfl
  · simp [CachedBlockstore]

/-! ## Composition of the layers -/

/-- C16: for options that pass the validation, the store returned is `bs` itself
when both sizes are zero; the result of `newTwoQueueCachedBS` on `bs` with size
`HasTwoQueueCacheSize` when only that size is non-zero; the result of
`bloomCached` on `bs` when only `HasBloomFilterSize` is non-zero; and, when both
are non-zero, the result of `bloomCached` on the result of
`newTwoQueueCachedBS` on `bs` (two-queue innermost).  The error returned is that
of the last constructor called, hence `nil` when the constructors succeed.
Every bloom layer is built with the `int` value of `HasBloomFilterSize*8` bits,
which is eight times the size for sizes below `2^60`, and with
`HasBloomFilterHashes` hash functions. -/
theorem CachedBlockstore_layers (env : Env B C) (ctx : C) (bs : Option B) (opts : CacheOpts)
    (hvalid : ¬ (opts.HasBloomFilterSize < 0 ∨ opts.HasBloomFilterHashes < 0 ∨
        opts.HasTwoQueueCacheSize < 0 ∨
        (opts.HasBloomFilterSize ≠ 0 ∧ opts.HasBloomFilterHashes = 0))) :
    (opts.HasTwoQueueCacheSize = 0 → opts.HasBloomFilterSize = 0 →
      CachedBlockstore env ctx bs opts = ⟨bs, none, []⟩) ∧
    (opts.HasTwoQueueCacheSize ≠ 0 → opts.HasBloomFilterSize = 0 →
      CachedBlockstore env ctx bs opts =
        ⟨(env.newTwoQueueCachedBS (env.CtxSubScope ctx "bs.cache") bs
            opts.HasTwoQueueCacheSize).1,
         (env.newTwoQueueCachedBS (env.CtxSubScope ctx "bs.cache") bs
            opts.HasTwoQueueCacheSize).2,
         [.newTwoQueueCachedBS (env.CtxSubScope ctx "bs.cache") bs
            opts.HasTwoQueueCacheSize]⟩) ∧
    (opts.HasTwoQueueCacheSize = 0 → opts.HasBloomFilterSize ≠ 0 →
      CachedBlockstore env ctx bs opts =
        ⟨(env.bloomCached (env.CtxSubScope ctx "bs.cache") bs
            (wrapInt (opts.HasBloomFilterSize * 8)) opts.HasBloomFilterHashes).1,
         (env.bloomCached (env.CtxSubScope ctx "bs.cache") bs
            (wrapInt (opts.HasBloomFilterSize * 8)) opts.HasBloomFilterHashes).2,
         [.bloomCached (env.CtxSubScope ctx "bs.cache") bs
            (wrapInt (opts.HasBloomFilterSize * 8)) opts.HasBloomFilterHashes]⟩) ∧
    (opts.HasTwoQueueCacheSize ≠ 0 → opts.HasBloomFilterSize ≠ 0 →
      CachedBlockstore env ctx bs opts =
        ⟨(env.bloomCached (env.CtxSubScope ctx "bs.cache")
            (env.newTwoQueueCachedBS (env.CtxSubScope ctx "bs.cache") bs
              opts.HasTwoQueueCacheSize).1
            (wrapInt (opts.HasBloomFilterSize * 8)) opts.HasBloomFilterHashes).1,
         (env.bloomCached (env.CtxSubScope ctx "bs.cache")
            (env.newTwoQueueCachedBS (env.CtxSubScope ctx "bs.cache") bs
              opts.HasTwoQueueCacheSize).1
            (wrapInt (opts.HasBloomFilterSize * 8)) opts.HasBloomFilterHashes).2,
         [.newTwoQueueCachedBS (env.CtxSubScope ctx "bs.cache") bs
            opts.HasTwoQueueCacheSize,
          .bloomCached (env.CtxSubScope ctx "bs.cache")
            (env.newTwoQueueCachedBS (env.CtxSubScope ctx "bs.cache") bs
              opts.HasTwoQueueCacheSize).1
            (wrapInt (opts.HasBloomFilterSize * 8)) opts.HasBloomFilterHashes]⟩) ∧
    (∀ c inner bits hashes,
      Call.bloomCached c inner bits hashes ∈ (CachedBlockstore env ctx bs opts).calls →
      bits = wrapInt (opts.HasBloomFilterSize * 8) ∧ hashes = opts.HasBloomFilterHashes) ∧
    (opts.HasBloomFilterSize < 2 ^ 60 →
      wrapInt (opts.HasBloomFilterSize * 8) = opts.HasBloomFilterSize * 8) := by
  have h1 : ¬ (opts.HasBloomFilterSize < 0 ∨ opts.HasBloomFilterHashes < 0 ∨
      opts.HasTwoQueueCacheSize < 0) := by
    intro h
    apply hvalid
    rcases h with h | h | h
    · exact Or.inl h
    · exact Or.inr (Or.inl h)
    · exact Or.inr (Or.inr (Or.inl h))
  have h2 : ¬ (opts.HasBloomFilterSize ≠ 0 ∧ opts.HasBloomFilterHashes = 0) :=
    fun h => hvalid (Or.inr (Or.inr (Or.inr h)))
  have hv := CachedBlockstore_valid env ctx bs opts h1 h2
  have htq : 0 ≤ opts.HasTwoQueueCacheSize := by
    by_contra hneg
    exact h1 (Or.inr (Or.inr (by omega)))
  have hsz : 0 ≤ opts.HasBloomFilterSize := by
    by_contra hneg
    exact h1 (Or.inl (by omega))
  refine ⟨?_, ?_, ?_, ?_, ?_, ?_⟩
  · intro h3 h4
    exact hv.1 (by omega) (by simp [h4])
  · intro h3 h4
    exact hv.2.1 (by omega) (by simp [h4])
  · intro h3 h4
    exact hv.2.2.1 (by omega) h4
  · intro h3 h4
    exact hv.2.2.2 (by omega) h4
  · intro c inner bits hashes hmem
    by_cases h3 : opts.HasTwoQueueCacheSize > 0 <;>
      by_cases h4 : opts.HasBloomFilterSize ≠ 0
    · rw [hv.2.2.2 h3 h4] at hmem
      simp at hmem
      exact ⟨hmem.2.2.1, hmem.2.2.2⟩
    · rw [hv.2.1 h3 h4] at hmem
      simp at hmem
    · rw [hv.2.2.1 h3 h4] at hmem
      simp at hmem
      exact ⟨hmem.2.2.1, hmem.2.2.2⟩
    · rw [hv.1 h3 h4] at hmem
      simp at hmem
  · intro hlt
    unfold wrapInt
    omega

/-- Witness for C16: the default options over constructors that succeed give
the bloom layer (`4194304` bits, `7` hashes) around the two-queue layer (size
`65536`) around the store given. -/
theorem CachedBlockstore_layers_witness :
    CachedBlockstore (testLayers false false) "root" (some (.base 0)) DefaultCacheOpts =
      ⟨some (.bloom (.twoQueue (.base 0) 65536) 4194304 7), none,
        [.newTwoQueueCachedBS "root/bs.cache" (some (.base 0)) 65536,
         .bloomCached "root/bs.cache" (some (.twoQueue (.base 0) 65536)) 4194304 7]⟩ := by
  have h := (CachedBlockstore_layers (testLayers false false) "root" (some (.base 0))
    DefaultCacheOpts (by decide)).2.2.2.1 (by decide) (by decide)
  rw [h]
  decide

/-! ## Failure of a layer constructor -/

/-- C20, what the code does: with all three options equal to `1`, a two-queue
constructor that fails with error `1` and a bloom constructor that succeeds,
`CachedBlockstore` calls `bloomCached` on the `nil` store the failed
constructor returned, and returns the bloom layer built over it together with a
`nil` error: the failure of the two-queue constructor is lost. -/
theorem twoQueue_failure_lost :
    (testLayers true false).newTwoQueueCachedBS "root/bs.cache" (some (.base 0)) 1
      = (none, some (.foreign 1)) ∧
    CachedBlockstore (testLayers true false) "root" (some (.base 0)) ⟨1, 1, 1⟩ =
      ⟨some (.bloom .missing 8 1), none,
        [.newTwoQueueCachedBS "root/bs.cache" (some (.base 0)) 1,
         .bloomCached "root/bs.cache" none 8 1]⟩ := by
  decide

end Blockstore
